import Mathlib

/-!
Shallow embedding of the gencad-rs GenCAD parser/serializer core.

The Rust sources are embedded as executable Lean definitions:

* nom parser combinators over `&str`/`&[u8]` become functions
  `List Char → PRes α`, where `PRes` distinguishes a recoverable error
  (nom `Err::Error`) from an unrecoverable one (nom `Err::Failure`, as
  produced by `cut`), so that `alt` backtracks exactly as nom does.
* The Rust `Number` type (`f32`) is modelled as `Rat`; the decimal
  literals exercised by the theorems below are all integers, which both
  `f32` and `Rat` represent exactly.  Error values carried by nom errors
  are not observed by any claim and are collapsed to a fixed message.
* Each `Result<_, Box<dyn Error>>` becomes `Except String _`; the
  messages produced with `format!` in the sources are reproduced
  verbatim, while nom-level grammar errors are collapsed to the fixed
  string "parse error" (no claim inspects those messages).
-/

set_option maxRecDepth 100000

deriving instance DecidableEq for Except

namespace Gencad

abbrev Chars := List Char

/-- Result of a nom-style parser: success with remaining input, a
recoverable error (nom `Err::Error`), or an unrecoverable failure
(nom `Err::Failure`, produced by `cut`). -/
inductive PRes (α : Type) where
  | ok : Chars → α → PRes α
  | err : PRes α
  | cut : PRes α
deriving DecidableEq

/-- A parser over character lists, as in nom over `&str`. -/
def Parser (α : Type) : Type := Chars → PRes α

instance : Monad Parser where
  pure a := fun s => .ok s a
  bind p f := fun s =>
    match p s with
    | .ok r a => f a r
    | .err => .err
    | .cut => .cut

/-- nom `alt` of two parsers: the second runs only on a recoverable error. -/
def alt2 (p q : Parser α) : Parser α := fun s =>
  match p s with
  | .err => q s
  | r => r

/-- A parser that always fails recoverably (nom `fail`). -/
def failP : Parser α := fun _ => .err

/-- nom `cut`: turn a recoverable error of the inner parser into a failure. -/
def cutP (p : Parser α) : Parser α := fun s =>
  match p s with
  | .err => .cut
  | r => r

/-- nom `opt`: recoverable error becomes `none`, failure propagates. -/
def optP (p : Parser α) : Parser (Option α) := fun s =>
  match p s with
  | .ok r a => .ok r (some a)
  | .err => .ok s none
  | .cut => .cut

/-- nom `tag`: match a literal prefix. -/
def tagP (t : Chars) : Parser Chars := fun s =>
  if t.isPrefixOf s then .ok (s.drop t.length) t else .err

/-- Tag given as a string literal. -/
def tagS (t : String) : Parser Chars := tagP t.data

/-- nom `char`: match one specific character. -/
def charP (c : Char) : Parser Char := fun s =>
  match s with
  | [] => .err
  | c' :: r => if c' = c then .ok r c else .err

/-- nom `take_while`: longest (possibly empty) prefix satisfying `f`. -/
def takeWhileP (f : Char → Bool) : Parser Chars := fun s =>
  .ok (s.dropWhile f) (s.takeWhile f)

/-- nom `take_while1`: like `take_while` but the prefix must be nonempty. -/
def takeWhile1P (f : Char → Bool) : Parser Chars := fun s =>
  match s.takeWhile f with
  | [] => .err
  | t => .ok (s.dropWhile f) t

/-- nom `take_till`: consume until `f` holds (possibly nothing). -/
def takeTillP (f : Char → Bool) : Parser Chars :=
  takeWhileP (fun c => !f c)

/-- Fuelled body of nom `many0`, with nom's infinite-loop protection:
an iteration that consumes no input is an error. -/
def many0F (p : Parser α) : Nat → Parser (List α)
  | 0 => failP
  | fuel + 1 => fun s =>
    match p s with
    | .err => .ok s []
    | .cut => .cut
    | .ok r a =>
      if r.length = s.length then .err
      else
        match many0F p fuel r with
        | .ok r2 as => .ok r2 (a :: as)
        | .err => .err
        | .cut => .cut

/-- nom `many0`. -/
def many0P (p : Parser α) : Parser (List α) := fun s =>
  many0F p (s.length + 1) s

/-- nom `many1`: one mandatory iteration, then `many0`. -/
def many1P (p : Parser α) : Parser (List α) := fun s =>
  match p s with
  | .err => .err
  | .cut => .cut
  | .ok r a =>
    match many0P p r with
    | .ok r2 as => .ok r2 (a :: as)
    | .err => .err
    | .cut => .cut

/-- Embedding of `crate::parser::types::util::spaces`: one or more `' '`. -/
def spaces : Parser Chars := takeWhile1P (fun c => c = ' ')

/-- nom `digit1`. -/
def digit1 : Parser Chars := takeWhile1P Char.isDigit

/-- Numeric value of a digit run. -/
def digitsVal (ds : Chars) : Nat :=
  ds.foldl (fun a c => 10 * a + (c.toNat - '0'.toNat)) 0

/-- Embedding of `number` (src/parser/types/number.rs): nom
`recognize_float` followed by conversion of the lexeme.  The grammar is
nom's: optional sign, then either `digit1 ('.' digit0)?` or `'.' digit1`,
then an optional exponent whose digits are under `cut`.  The `f32` value
is modelled as the exact rational denoted by the lexeme. -/
def number : Parser Rat := do
  let sg ← optP (alt2 (charP '+') (charP '-'))
  let mantissa ← alt2
    (do
      let ip ← digit1
      let fp ← optP (do
        let _ ← charP '.'
        takeWhileP Char.isDigit)
      pure (ip, fp.getD []))
    (do
      let _ ← charP '.'
      let fp ← digit1
      pure (([] : Chars), fp))
  let ex ← optP (do
    let _ ← alt2 (charP 'e') (charP 'E')
    let es ← optP (alt2 (charP '+') (charP '-'))
    let ds ← cutP digit1
    pure (es, ds))
  let (ip, fp) := mantissa
  let n0 : Nat := digitsVal ip * 10 ^ fp.length + digitsVal fp
  let d0 : Nat := 10 ^ fp.length
  let nd : Nat × Nat :=
    match ex with
    | none => (n0, d0)
    | some (es, ds) =>
      if es = some '-' then (n0, d0 * 10 ^ digitsVal ds)
      else (n0 * 10 ^ digitsVal ds, d0)
  let n1 : Int := if sg = some '-' then -(nd.1 : Int) else (nd.1 : Int)
  pure (mkRat n1 nd.2)

/-- Embedding of `p_integer` (src/types/p_integer.rs): optional `+`,
digits, value must fit in `u16`. -/
def p_integer : Parser Nat := do
  let _ ← optP (charP '+')
  let ds ← digit1
  let n := digitsVal ds
  if n ≤ 65535 then pure n else failP

/-- Printable ASCII, as in `is_valid_char` (src/parser/types/string.rs). -/
def is_valid_char (c : Char) : Bool := ' ' ≤ c && c ≤ '~'

/-- Embedding of `unquoted_string`: must not begin with `"`, longest run
of printable ASCII other than space (possibly empty). -/
def unquoted_string : Parser Chars := fun s =>
  match s with
  | '"' :: _ => .err
  | _ => takeWhileP (fun c => c ≠ ' ' && is_valid_char c) s

/-- Embedding of `backslash_sequence`: `\"` decodes to `"`, any other
backslash is a literal backslash. -/
def backslash_sequence : Parser Char :=
  alt2
    (do
      let _ ← charP '\\'
      let _ ← charP '"'
      pure '"')
    (do
      let _ ← charP '\\'
      pure '\\')

/-- Embedding of `quoted_string_inner_fragment`. -/
def quoted_string_inner_fragment : Parser Chars :=
  alt2
    (do
      let c ← backslash_sequence
      pure [c])
    (takeWhile1P (fun c => c ≠ '\\' && c ≠ '"' && is_valid_char c))

/-- Embedding of `quoted_string`: `"` fragments `"`. -/
def quoted_string : Parser String := do
  let _ ← charP '"'
  let frags ← many0P quoted_string_inner_fragment
  let _ ← charP '"'
  pure (String.mk frags.flatten)

/-- Embedding of `string` (src/parser/types/string.rs): unquoted form
first, quoted form second (the unquoted form rejects a leading `"`). -/
def stringP : Parser String :=
  alt2 (do pure (String.mk (← unquoted_string))) quoted_string

/-- Layer enumeration (src/types/layer.rs). -/
inductive Layer where
  | top
  | bottom
  | soldermaskTop
  | soldermaskBottom
  | silkscreenTop
  | silkscreenBottom
  | solderpasteTop
  | solderpasteBottom
  | powerX (n : Nat)
  | groundX (n : Nat)
  | inner
  | innerX (n : Nat)
  | all
  | layerX (n : Nat)
  | layersetX (n : Nat)
deriving DecidableEq

/-- Embedding of `Layer::from_pair`: the digits must fit in `u16`. -/
def Layer.from_pair (k : String) (ds : Chars) : Option Layer :=
  if digitsVal ds ≤ 65535 then
    match k with
    | "POWER" => some (.powerX (digitsVal ds))
    | "GROUND" => some (.groundX (digitsVal ds))
    | "INNER" => some (.innerX (digitsVal ds))
    | "LAYER" => some (.layerX (digitsVal ds))
    | "LAYERSET" => some (.layersetX (digitsVal ds))
    | _ => none
  else none

/-- nom `map_res`: a conversion failure is a recoverable error. -/
def mapRes (p : Parser α) (f : α → Option β) : Parser β := fun s =>
  match p s with
  | .ok r a =>
    match f a with
    | some b => .ok r b
    | none => .err
  | .err => .err
  | .cut => .cut

/-- Embedding of `layer` (src/parser/types/layer.rs): parameterized
layers first (name followed by digits), then the named constants. -/
def layer : Parser Layer :=
  alt2
    (mapRes
      (alt2 (do let _ ← tagS "POWER"; pure ("POWER", ← digit1))
        (alt2 (do let _ ← tagS "GROUND"; pure ("GROUND", ← digit1))
          (alt2 (do let _ ← tagS "INNER"; pure ("INNER", ← digit1))
            (alt2 (do let _ ← tagS "LAYER"; pure ("LAYER", ← digit1))
              (do let _ ← tagS "LAYERSET"; pure ("LAYERSET", ← digit1))))))
      (fun kd => Layer.from_pair kd.1 kd.2))
    (alt2 (do let _ ← tagS "TOP"; pure Layer.top)
      (alt2 (do let _ ← tagS "BOTTOM"; pure Layer.bottom)
        (alt2 (do let _ ← tagS "SOLDERMASK_TOP"; pure Layer.soldermaskTop)
          (alt2 (do let _ ← tagS "SOLDERMASK_BOTTOM"; pure Layer.soldermaskBottom)
            (alt2 (do let _ ← tagS "SILKSCREEN_TOP"; pure Layer.silkscreenTop)
              (alt2 (do let _ ← tagS "SILKSCREEN_BOTTOM"; pure Layer.silkscreenBottom)
                (alt2 (do let _ ← tagS "SOLDERPASTE_TOP"; pure Layer.solderpasteTop)
                  (alt2 (do let _ ← tagS "SOLDERPASTE_BOTTOM"; pure Layer.solderpasteBottom)
                    (alt2 (do let _ ← tagS "INNER"; pure Layer.inner)
                      (do let _ ← tagS "ALL"; pure Layer.all))))))))))

/-- Dimension enumeration (src/types/dimension.rs). -/
inductive Dimension where
  | inch
  | thou
  | mm100
  | mm
  | user (n : Nat)
  | userM (n : Nat)
  | userMm (n : Nat)
deriving DecidableEq

/-- Embedding of `dimension` (src/parser/types/dimension.rs). -/
def dimension : Parser Dimension :=
  alt2
    (alt2 (do let _ ← tagS "INCH"; pure Dimension.inch)
      (alt2 (do let _ ← tagS "THOU"; pure Dimension.thou)
        (alt2 (do let _ ← tagS "MM100"; pure Dimension.mm100)
          (do let _ ← tagS "MM"; pure Dimension.mm))))
    (alt2 (do let _ ← tagS "USERMM"; let _ ← spaces; pure (Dimension.userMm (← p_integer)))
      (alt2 (do let _ ← tagS "USERM"; let _ ← spaces; pure (Dimension.userM (← p_integer)))
        (do let _ ← tagS "USER"; let _ ← spaces; pure (Dimension.user (← p_integer)))))

/-- Mirror enumeration (src/types/mirror.rs). -/
inductive Mirror where
  | not
  | mirrorX
  | mirrorY
deriving DecidableEq

/-- Embedding of `mirror` (src/parser/types/mirror.rs). -/
def mirror : Parser Mirror :=
  alt2 (do let _ ← tagS "0"; pure Mirror.not)
    (alt2 (do let _ ← tagS "MIRRORX"; pure Mirror.mirrorX)
      (do let _ ← tagS "MIRRORY"; pure Mirror.mirrorY))

/-- Pad type enumeration (src/types/pad_type.rs). -/
inductive PadType where
  | finger
  | round
  | annular
  | bullet
  | rectangular
  | hexagon
  | octagon
  | polygon
  | unknown
deriving DecidableEq

/-- Embedding of `pad_type` (src/parser/types/pad_type.rs). -/
def pad_type : Parser PadType :=
  alt2 (do let _ ← tagS "FINGER"; pure PadType.finger)
    (alt2 (do let _ ← tagS "ROUND"; pure PadType.round)
      (alt2 (do let _ ← tagS "ANNULAR"; pure PadType.annular)
        (alt2 (do let _ ← tagS "BULLET"; pure PadType.bullet)
          (alt2 (do let _ ← tagS "RECTANGULAR"; pure PadType.rectangular)
            (alt2 (do let _ ← tagS "HEXAGON"; pure PadType.hexagon)
              (alt2 (do let _ ← tagS "OCTAGON"; pure PadType.octagon)
                (alt2 (do let _ ← tagS "POLYGON"; pure PadType.polygon)
                  (do let _ ← tagS "UNKNOWN"; pure PadType.unknown))))))))

/-- Embedding of `filled_ref` (src/types/booleans.rs): `0` or `YES`. -/
def filled_ref : Parser Bool :=
  alt2 (do let _ ← tagS "0"; pure false) (do let _ ← tagS "YES"; pure true)

/-- Modelled from the spec: the `flip` boolean-flag parser used by the
COMPONENTS section is absent from src/ (only a commented-out
`bool_parser!(flip, "FLIP")` remains in src/types/booleans.rs); the
boolean-flag pattern gives `0` for false and the flag name for true. -/
def flip : Parser Bool :=
  alt2 (do let _ ← tagS "0"; pure false) (do let _ ← tagS "FLIP"; pure true)

/-- Coordinate pair (src/types/x_y_ref.rs). -/
structure XYRef where
  x : Rat
  y : Rat
deriving DecidableEq

/-- Embedding of `x_y_ref`: two numbers separated by spaces. -/
def x_y_ref : Parser XYRef := do
  let x ← number
  let _ ← spaces
  let y ← number
  pure ⟨x, y⟩

/-- Line segment (src/types/line_ref.rs). -/
structure LineRef where
  start : XYRef
  stop : XYRef
deriving DecidableEq

/-- Embedding of `line_ref`. -/
def line_ref : Parser LineRef := do
  let a ← x_y_ref
  let _ ← spaces
  let b ← x_y_ref
  pure ⟨a, b⟩

/-- Circle (src/parser/types/circle_ref.rs). -/
structure CircleRef where
  center : XYRef
  radius : Rat
deriving DecidableEq

/-- Embedding of `circle_ref`. -/
def circle_ref : Parser CircleRef := do
  let c ← x_y_ref
  let _ ← spaces
  let r ← number
  pure ⟨c, r⟩

/-- Rectangle (src/parser/types/rectangle_ref.rs). -/
structure RectangleRef where
  origin : XYRef
  x : Rat
  y : Rat
deriving DecidableEq

/-- Embedding of `rectangle_ref`. -/
def rectangle_ref : Parser RectangleRef := do
  let o ← x_y_ref
  let _ ← spaces
  let a ← number
  let _ ← spaces
  let b ← number
  pure ⟨o, a, b⟩

/-- Circular arc (src/parser/types/arc_ref.rs). -/
structure CircularArcRef where
  start : XYRef
  stop : XYRef
  center : XYRef
deriving DecidableEq

/-- Elliptical arc (src/parser/types/arc_ref.rs). -/
structure EllipticalArcRef where
  start : XYRef
  stop : XYRef
  center : XYRef
  major_radius : Rat
  minor_radius : Rat
deriving DecidableEq

/-- Arc: circular or elliptical (src/parser/types/arc_ref.rs). -/
inductive ArcRef where
  | circular (a : CircularArcRef)
  | elliptical (a : EllipticalArcRef)
deriving DecidableEq

/-- Embedding of `arc_ref`: the elliptical (longer) alternative is tried
first, then the circular one. -/
def arc_ref : Parser ArcRef :=
  alt2
    (do
      let a ← x_y_ref
      let _ ← spaces
      let b ← x_y_ref
      let _ ← spaces
      let c ← x_y_ref
      let _ ← spaces
      let maj ← number
      let _ ← spaces
      let min ← number
      pure (ArcRef.elliptical ⟨a, b, c, maj, min⟩))
    (do
      let a ← x_y_ref
      let _ ← spaces
      let b ← x_y_ref
      let _ ← spaces
      let c ← x_y_ref
      pure (ArcRef.circular ⟨a, b, c⟩))

/-- Attribute triple (src/types/attrib_ref.rs). -/
structure Attribute where
  category : String
  name : String
  data : String
deriving DecidableEq

/-- Embedding of `attrib_ref`: three strings separated by spaces. -/
def attrib_ref : Parser Attribute := do
  let c ← stringP
  let _ ← spaces
  let n ← stringP
  let _ ← spaces
  let d ← stringP
  pure ⟨c, n, d⟩

/-- Text parameters (src/types/text_par.rs). -/
structure TextPar where
  text_size : Rat
  rotation : Rat
  mirror : Mirror
  layer : Layer
  text : String
  area : RectangleRef
deriving DecidableEq

/-- Embedding of `text_par`. -/
def text_par : Parser TextPar := do
  let ts ← number
  let _ ← spaces
  let rot ← number
  let _ ← spaces
  let m ← mirror
  let _ ← spaces
  let l ← layer
  let _ ← spaces
  let t ← stringP
  let _ ← spaces
  let a ← rectangle_ref
  pure ⟨ts, rot, m, l, t, a⟩

/-- A keyword/parameter pair (src/parser/mod.rs `KeywordParam`). -/
structure KeywordParam where
  keyword : String
  parameter : String
deriving DecidableEq

/-- Run a primitive parser on a parameter string, discarding the
remainder, exactly as the Rust `let (_, v) = p(s).map_err(...)?`
pattern does; nom-level failures collapse to a fixed message. -/
def runP (p : Parser α) (s : String) : Except String α :=
  match p s.data with
  | .ok _ v => .ok v
  | _ => .error "parse error"

/-- Pad outline element (src/parser/sections/pads.rs `PadShape`). -/
inductive PadShape where
  | line (l : LineRef)
  | arc (a : ArcRef)
  | circle (c : CircleRef)
  | rectangle (r : RectangleRef)
deriving DecidableEq

/-- A pad (src/parser/sections/pads.rs `Pad`). -/
structure Pad where
  name : String
  ptype : PadType
  drill_size : Rat
  shapes : List PadShape
  attributes : List Attribute
deriving DecidableEq

/-- State of the PADS parser (src/parser/sections/pads.rs `ParserState`). -/
inductive PadsParserState where
  | init
  | pad (p : Pad)
deriving DecidableEq

/-- Accumulator of `parse_pads`: output list plus parser state. -/
structure PadsAcc where
  pads : List Pad
  state : PadsParserState
deriving DecidableEq

/-- One iteration of the `parse_pads` loop.  Keywords other than `PAD`
act only while a pad is open; in the `Init` state they are skipped
without even parsing their parameters, and unrecognized keywords are
always skipped (`_ => {}`). -/
def padsStep (acc : PadsAcc) (kp : KeywordParam) : Except String PadsAcc :=
  match kp.keyword with
  | "LINE" =>
    match acc.state with
    | .pad p => do
      let l ← runP line_ref kp.parameter
      .ok ⟨acc.pads, .pad { p with shapes := p.shapes ++ [.line l] }⟩
    | .init => .ok acc
  | "ARC" =>
    match acc.state with
    | .pad p => do
      let a ← runP arc_ref kp.parameter
      .ok ⟨acc.pads, .pad { p with shapes := p.shapes ++ [.arc a] }⟩
    | .init => .ok acc
  | "CIRCLE" =>
    match acc.state with
    | .pad p => do
      let c ← runP circle_ref kp.parameter
      .ok ⟨acc.pads, .pad { p with shapes := p.shapes ++ [.circle c] }⟩
    | .init => .ok acc
  | "RECTANGLE" =>
    match acc.state with
    | .pad p => do
      let r ← runP rectangle_ref kp.parameter
      .ok ⟨acc.pads, .pad { p with shapes := p.shapes ++ [.rectangle r] }⟩
    | .init => .ok acc
  | "ATTRIBUTE" =>
    match acc.state with
    | .pad p => do
      let a ← runP attrib_ref kp.parameter
      .ok ⟨acc.pads, .pad { p with attributes := p.attributes ++ [a] }⟩
    | .init => .ok acc
  | "PAD" => do
    let flushed :=
      match acc.state with
      | .pad p => acc.pads ++ [p]
      | .init => acc.pads
    let v ← runP
      (do
        let n ← stringP
        let _ ← spaces
        let t ← pad_type
        let _ ← spaces
        let d ← number
        pure (n, t, d))
      kp.parameter
    .ok ⟨flushed, .pad ⟨v.1, v.2.1, v.2.2, [], []⟩⟩
  | _ => .ok acc

/-- Embedding of `parse_pads` (src/parser/sections/pads.rs). -/
def parse_pads (params : List KeywordParam) : Except String (List Pad) := do
  let acc ← params.foldlM padsStep ⟨[], .init⟩
  match acc.state with
  | .pad p => .ok (acc.pads ++ [p])
  | .init => .ok acc.pads

/-- Board outline element (src/parser/sections/board.rs `BoardShape`). -/
inductive BoardShape where
  | line (l : LineRef)
  | arc (a : ArcRef)
  | circle (c : CircleRef)
  | rectangle (r : RectangleRef)
deriving DecidableEq

/-- A board cutout (src/parser/sections/board.rs `Cutout`). -/
structure Cutout where
  name : String
  shapes : List BoardShape
  attributes : List Attribute
deriving DecidableEq

/-- A board mask (src/parser/sections/board.rs `Mask`). -/
structure Mask where
  name : String
  layer : Layer
  shapes : List BoardShape
  attributes : List Attribute
deriving DecidableEq

/-- A text element in board artwork (src/parser/sections/board.rs `Text`). -/
structure BoardText where
  origin : XYRef
  text : TextPar
deriving DecidableEq

/-- A component of a board artwork (src/parser/sections/board.rs
`ArtworkComponent`). -/
inductive ArtworkComponent where
  | line (l : LineRef)
  | arc (a : ArcRef)
  | circle (c : CircleRef)
  | rectangle (r : RectangleRef)
  | track (t : String)
  | filled (b : Bool)
  | text (t : BoardText)
deriving DecidableEq

/-- A board artwork (src/parser/sections/board.rs `Artwork`). -/
structure BoardArtwork where
  name : String
  layer : Layer
  components : List ArtworkComponent
  attributes : List Attribute
deriving DecidableEq

/-- A BOARD subsection (src/parser/sections/board.rs `Subsection`). -/
inductive Subsection where
  | cutout (c : Cutout)
  | mask (m : Mask)
  | artwork (a : BoardArtwork)
deriving DecidableEq

/-- Append a board shape to whichever subsection is open, matching the
per-variant pushes in `Board::new`; an artwork receives it as an
`ArtworkComponent`. -/
def Subsection.pushShape (s : Subsection) (b : BoardShape) : Subsection :=
  match s, b with
  | .cutout c, b => .cutout { c with shapes := c.shapes ++ [b] }
  | .mask m, b => .mask { m with shapes := m.shapes ++ [b] }
  | .artwork a, .line l => .artwork { a with components := a.components ++ [.line l] }
  | .artwork a, .arc x => .artwork { a with components := a.components ++ [.arc x] }
  | .artwork a, .circle c => .artwork { a with components := a.components ++ [.circle c] }
  | .artwork a, .rectangle r => .artwork { a with components := a.components ++ [.rectangle r] }

/-- Append an attribute to whichever subsection is open. -/
def Subsection.pushAttr (s : Subsection) (at_ : Attribute) : Subsection :=
  match s with
  | .cutout c => .cutout { c with attributes := c.attributes ++ [at_] }
  | .mask m => .mask { m with attributes := m.attributes ++ [at_] }
  | .artwork a => .artwork { a with attributes := a.attributes ++ [at_] }

/-- State of the BOARD parser (src/parser/sections/board.rs
`BoardParserState`). -/
inductive BoardParserState where
  | board
  | subsection (s : Subsection)
deriving DecidableEq

/-- The BOARD section (src/parser/sections/board.rs `Board`). -/
structure Board where
  thickness : Option Rat
  outline_shapes : List BoardShape
  attributes : List Attribute
  subsections : List Subsection
deriving DecidableEq

/-- Accumulator of the `Board::new` loop: the four output fields under
construction plus the parser state. -/
structure BoardAcc where
  thickness : Option Rat
  outline_shapes : List BoardShape
  attributes : List Attribute
  subsections : List Subsection
  state : BoardParserState
deriving DecidableEq

/-- One iteration of the `Board::new` loop. -/
def boardStep (acc : BoardAcc) (kp : KeywordParam) : Except String BoardAcc :=
  match kp.keyword with
  | "THICKNESS" =>
    if acc.state = .board ∧ acc.thickness = none then do
      let v ← runP number kp.parameter
      .ok { acc with thickness := some v }
    else .ok acc
  | "LINE" => do
    let l ← runP line_ref kp.parameter
    match acc.state with
    | .subsection s => .ok { acc with state := .subsection (s.pushShape (.line l)) }
    | .board => .ok { acc with outline_shapes := acc.outline_shapes ++ [.line l] }
  | "ARC" => do
    let a ← runP arc_ref kp.parameter
    match acc.state with
    | .subsection s => .ok { acc with state := .subsection (s.pushShape (.arc a)) }
    | .board => .ok { acc with outline_shapes := acc.outline_shapes ++ [.arc a] }
  | "CIRCLE" => do
    let c ← runP circle_ref kp.parameter
    match acc.state with
    | .subsection s => .ok { acc with state := .subsection (s.pushShape (.circle c)) }
    | .board => .ok { acc with outline_shapes := acc.outline_shapes ++ [.circle c] }
  | "RECTANGLE" => do
    let r ← runP rectangle_ref kp.parameter
    match acc.state with
    | .subsection s => .ok { acc with state := .subsection (s.pushShape (.rectangle r)) }
    | .board => .ok { acc with outline_shapes := acc.outline_shapes ++ [.rectangle r] }
  | "ATTRIBUTE" => do
    let a ← runP attrib_ref kp.parameter
    match acc.state with
    | .subsection s => .ok { acc with state := .subsection (s.pushAttr a) }
    | .board => .ok { acc with attributes := acc.attributes ++ [a] }
  | "TRACK" => do
    let t ← runP stringP kp.parameter
    match acc.state with
    | .subsection (.artwork a) =>
      .ok { acc with state := .subsection (.artwork { a with components := a.components ++ [.track t] }) }
    | _ => .error "TRACK is only supported in ARTWORK section!"
  | "FILLED" => do
    let f ← runP filled_ref kp.parameter
    match acc.state with
    | .subsection (.artwork a) =>
      .ok { acc with state := .subsection (.artwork { a with components := a.components ++ [.filled f] }) }
    | _ => .error "FILLED is only supported in ARTWORK section!"
  | "TEXT" => do
    let v ← runP (do
      let o ← x_y_ref
      let _ ← spaces
      let t ← text_par
      pure (o, t)) kp.parameter
    match acc.state with
    | .subsection (.artwork a) =>
      .ok { acc with state := .subsection (.artwork { a with components := a.components ++ [.text ⟨v.1, v.2⟩] }) }
    | _ => .error "TEXT is only supported in ARTWORK section!"
  | "CUTOUT" => do
    let flushed :=
      match acc.state with
      | .subsection s => acc.subsections ++ [s]
      | .board => acc.subsections
    let n ← runP stringP kp.parameter
    .ok { acc with subsections := flushed, state := .subsection (.cutout ⟨n, [], []⟩) }
  | "MASK" => do
    let flushed :=
      match acc.state with
      | .subsection s => acc.subsections ++ [s]
      | .board => acc.subsections
    let v ← runP (do
      let n ← stringP
      let _ ← spaces
      let l ← layer
      pure (n, l)) kp.parameter
    .ok { acc with subsections := flushed, state := .subsection (.mask ⟨v.1, v.2, [], []⟩) }
  | "ARTWORK" => do
    let flushed :=
      match acc.state with
      | .subsection s => acc.subsections ++ [s]
      | .board => acc.subsections
    let v ← runP (do
      let n ← stringP
      let _ ← spaces
      let l ← layer
      pure (n, l)) kp.parameter
    .ok { acc with subsections := flushed, state := .subsection (.artwork ⟨v.1, v.2, [], []⟩) }
  | _ => .ok acc

/-- Embedding of `Board::new` (src/parser/sections/board.rs): fold the
step over the parameters, then flush any open subsection. -/
def Board.new (params : List KeywordParam) : Except String Board := do
  let acc ← params.foldlM boardStep ⟨none, [], [], [], .board⟩
  let subs :=
    match acc.state with
    | .subsection s => acc.subsections ++ [s]
    | .board => acc.subsections
  .ok ⟨acc.thickness, acc.outline_shapes, acc.attributes, subs⟩

/-- Shape outline element (src/parser/sections/shapes.rs `ShapeElement`). -/
inductive ShapeElement where
  | line (l : LineRef)
  | arc (a : ArcRef)
  | circle (c : CircleRef)
  | rectangle (r : RectangleRef)
  | fiducial (xy : XYRef)
deriving DecidableEq

/-- Package insertion style (src/parser/sections/shapes.rs `Insert`). -/
inductive Insert where
  | th
  | axial
  | radial
  | dip
  | sip
  | zip
  | conn
  | smd
  | other
deriving DecidableEq

/-- Embedding of `Insert::new`. -/
def Insert.new (s : String) : Except String Insert :=
  match s with
  | "TH" => .ok .th
  | "AXIAL" => .ok .axial
  | "RADIAL" => .ok .radial
  | "DIP" => .ok .dip
  | "SIP" => .ok .sip
  | "ZIP" => .ok .zip
  | "CONN" => .ok .conn
  | "SMD" => .ok .smd
  | "OTHER" => .ok .other
  | _ => .error ("Unexpected INSERT statement: " ++ s)

/-- Shape-level artwork reference (src/parser/sections/shapes.rs
`Artwork`). -/
structure ShapesArtwork where
  name : String
  xy : XYRef
  rotation : Rat
  mirror : Mirror
  attributes : List Attribute
deriving DecidableEq

/-- Embedding of shapes `Artwork::from_parameters`. -/
def ShapesArtwork.from_parameters (params : String) : Except String ShapesArtwork :=
  runP
    (do
      let n ← stringP
      let _ ← spaces
      let xy ← x_y_ref
      let _ ← spaces
      let r ← number
      let _ ← spaces
      let m ← Gencad.mirror
      pure (ShapesArtwork.mk n xy r m []))
    params

/-- Shape-level fiducial (src/parser/sections/shapes.rs `Fid`). -/
structure ShapesFid where
  name : String
  pad_name : String
  xy : XYRef
  layer : Layer
  rotation : Rat
  mirror : Mirror
  attributes : List Attribute
deriving DecidableEq

/-- Embedding of shapes `Fid::from_parameters`. -/
def ShapesFid.from_parameters (params : String) : Except String ShapesFid :=
  runP
    (do
      let n ← stringP
      let _ ← spaces
      let pn ← stringP
      let _ ← spaces
      let xy ← x_y_ref
      let _ ← spaces
      let l ← Gencad.layer
      let _ ← spaces
      let r ← number
      let _ ← spaces
      let m ← Gencad.mirror
      pure (ShapesFid.mk n pn xy l r m []))
    params

/-- Shape-level pin (src/parser/sections/shapes.rs `Pin`). -/
structure Pin where
  name : String
  pad_name : String
  xy : XYRef
  layer : Layer
  rotation : Rat
  mirror : Mirror
  attributes : List Attribute
deriving DecidableEq

/-- Embedding of `Pin::from_parameters`. -/
def Pin.from_parameters (params : String) : Except String Pin :=
  runP
    (do
      let n ← stringP
      let _ ← spaces
      let pn ← stringP
      let _ ← spaces
      let xy ← x_y_ref
      let _ ← spaces
      let l ← Gencad.layer
      let _ ← spaces
      let r ← number
      let _ ← spaces
      let m ← Gencad.mirror
      pure (Pin.mk n pn xy l r m []))
    params

/-- A shape sub-record (src/parser/sections/shapes.rs `SubShape`). -/
inductive SubShape where
  | artwork (a : ShapesArtwork)
  | fid (f : ShapesFid)
  | pin (p : Pin)
deriving DecidableEq

/-- Append an attribute to an open sub-record, as the `ATTRIBUTE` arm of
`ShapeParser::ingest` does per variant. -/
def SubShape.pushAttr (s : SubShape) (a : Attribute) : SubShape :=
  match s with
  | .artwork x => .artwork { x with attributes := x.attributes ++ [a] }
  | .fid x => .fid { x with attributes := x.attributes ++ [a] }
  | .pin x => .pin { x with attributes := x.attributes ++ [a] }

/-- A component shape (src/parser/sections/shapes.rs `Shape`). -/
structure Shape where
  name : String
  elements : List ShapeElement
  insert : Option Insert
  height : Option Rat
  subshapes : List SubShape
  attributes : List Attribute
deriving DecidableEq

/-- State of a single-shape parser (src/parser/sections/shapes.rs
`ShapeParserState`). -/
inductive ShapeParserState where
  | shape
  | subShape (s : SubShape)
deriving DecidableEq

/-- Parser for one shape (src/parser/sections/shapes.rs `ShapeParser`). -/
structure ShapeParser where
  state : ShapeParserState
  shape : Shape
deriving DecidableEq

/-- Embedding of `ShapeParser::from_parameters`: a new shape takes the
section-level default insert style passed in by the caller. -/
def ShapeParser.from_parameters (params : String) (insert : Option Insert) :
    Except String ShapeParser := do
  let n ← runP stringP params
  .ok ⟨.shape, ⟨n, [], insert, none, [], []⟩⟩

/-- Embedding of `ShapeParser::done`: flush any open sub-record into the
shape and return to the `Shape` state. -/
def ShapeParser.done (sp : ShapeParser) : ShapeParser :=
  match sp.state with
  | .shape => { sp with state := .shape }
  | .subShape s => ⟨.shape, { sp.shape with subshapes := sp.shape.subshapes ++ [s] }⟩

/-- Embedding of `ShapeParser::ingest`.  Note that the `INSERT` arm of
the `Shape` state is unreachable from `parse_shapes`, because
`ShapesParser::ingest` intercepts `INSERT` first; it is embedded anyway,
faithful to the source. -/
def ShapeParser.ingest (sp : ShapeParser) (kp : KeywordParam) : Except String ShapeParser :=
  match sp.state with
  | .shape =>
    match kp.keyword with
    | "LINE" => do
      let l ← runP line_ref kp.parameter
      .ok { sp with shape := { sp.shape with elements := sp.shape.elements ++ [.line l] } }
    | "ARC" => do
      let a ← runP arc_ref kp.parameter
      .ok { sp with shape := { sp.shape with elements := sp.shape.elements ++ [.arc a] } }
    | "CIRCLE" => do
      let c ← runP circle_ref kp.parameter
      .ok { sp with shape := { sp.shape with elements := sp.shape.elements ++ [.circle c] } }
    | "RECTANGLE" => do
      let r ← runP rectangle_ref kp.parameter
      .ok { sp with shape := { sp.shape with elements := sp.shape.elements ++ [.rectangle r] } }
    | "FIDUCIAL" => do
      let xy ← runP x_y_ref kp.parameter
      .ok { sp with shape := { sp.shape with elements := sp.shape.elements ++ [.fiducial xy] } }
    | "INSERT" => do
      let s ← runP stringP kp.parameter
      let i ← Insert.new s
      .ok { sp with shape := { sp.shape with insert := some i } }
    | "HEIGHT" => do
      let h ← runP number kp.parameter
      .ok { sp with shape := { sp.shape with height := some h } }
    | "ATTRIBUTE" => do
      let a ← runP attrib_ref kp.parameter
      .ok { sp with shape := { sp.shape with attributes := sp.shape.attributes ++ [a] } }
    | "ARTWORK" => do
      let a ← ShapesArtwork.from_parameters kp.parameter
      .ok { sp with state := .subShape (.artwork a) }
    | "FID" => do
      let f ← ShapesFid.from_parameters kp.parameter
      .ok { sp with state := .subShape (.fid f) }
    | "PIN" => do
      let p ← Pin.from_parameters kp.parameter
      .ok { sp with state := .subShape (.pin p) }
    | _ => .error ("Unexpected keyword in shape: " ++ kp.keyword)
  | .subShape sub =>
    match kp.keyword with
    | "ATTRIBUTE" => do
      let a ← runP attrib_ref kp.parameter
      .ok { sp with state := .subShape (sub.pushAttr a) }
    | "ARTWORK" => do
      let sp := sp.done
      let a ← ShapesArtwork.from_parameters kp.parameter
      .ok { sp with state := .subShape (.artwork a) }
    | "FID" => do
      let sp := sp.done
      let f ← ShapesFid.from_parameters kp.parameter
      .ok { sp with state := .subShape (.fid f) }
    | "PIN" => do
      let sp := sp.done
      let p ← Pin.from_parameters kp.parameter
      .ok { sp with state := .subShape (.pin p) }
    | _ => .error ("Unexpected keyword in subshape: " ++ kp.keyword)

/-- State of the SHAPES section parser (src/parser/sections/shapes.rs
`ShapesParserState`). -/
inductive ShapesParserState where
  | reset
  | shapeParser (p : ShapeParser)
deriving DecidableEq

/-- The SHAPES section parser (src/parser/sections/shapes.rs
`ShapesParser`): state, the section-level default insert style, and the
completed shapes. -/
structure ShapesParser where
  state : ShapesParserState
  insert : Option Insert
  shapes : List Shape
deriving DecidableEq

/-- Embedding of `ShapesParser::ingest`.  `SHAPE` and `INSERT` are
matched before delegating to the open `ShapeParser`, so an `INSERT` seen
while a shape is open updates only the section-level default. -/
def ShapesParser.ingest (sp : ShapesParser) (kp : KeywordParam) : Except String ShapesParser :=
  match sp.state with
  | .shapeParser parser =>
    match kp.keyword with
    | "SHAPE" => do
      let parser := parser.done
      let np ← ShapeParser.from_parameters kp.parameter sp.insert
      .ok ⟨.shapeParser np, sp.insert, sp.shapes ++ [parser.shape]⟩
    | "INSERT" => do
      let s ← runP stringP kp.parameter
      let i ← Insert.new s
      .ok { sp with insert := some i }
    | _ => do
      let p2 ← parser.ingest kp
      .ok { sp with state := .shapeParser p2 }
  | .reset =>
    match kp.keyword with
    | "SHAPE" => do
      let np ← ShapeParser.from_parameters kp.parameter sp.insert
      .ok { sp with state := .shapeParser np }
    | "INSERT" => do
      let s ← runP stringP kp.parameter
      let i ← Insert.new s
      .ok { sp with insert := some i }
    | _ => .error ("Unexpected keyword in shapes: " ++ kp.keyword)

/-- Embedding of `ShapesParser::finalize`: an open shape is flushed
unconditionally; finalization never fails. -/
def ShapesParser.finalize (sp : ShapesParser) : List Shape :=
  match sp.state with
  | .shapeParser parser => sp.shapes ++ [parser.done.shape]
  | .reset => sp.shapes

/-- Embedding of `parse_shapes` (src/parser/sections/shapes.rs). -/
def parse_shapes (params : List KeywordParam) : Except String (List Shape) := do
  let sp ← params.foldlM ShapesParser.ingest ⟨.reset, none, []⟩
  .ok sp.finalize

/-- A device pin description (src/parser/sections/devices.rs `PinDesc`). -/
structure PinDesc where
  pin_name : String
  text : String
deriving DecidableEq

/-- Embedding of `PinDesc::from_parameters`. -/
def PinDesc.from_parameters (params : String) : Except String PinDesc :=
  runP
    (do
      let n ← stringP
      let _ ← spaces
      let t ← stringP
      pure (PinDesc.mk n t))
    params

/-- A device pin function (src/parser/sections/devices.rs `PinFunct`). -/
structure PinFunct where
  pin_name : String
  text : String
deriving DecidableEq

/-- Embedding of `PinFunct::from_parameters`. -/
def PinFunct.from_parameters (params : String) : Except String PinFunct :=
  runP
    (do
      let n ← stringP
      let _ ← spaces
      let t ← stringP
      pure (PinFunct.mk n t))
    params

/-- A device (src/parser/sections/devices.rs `Device`). -/
structure Device where
  name : String
  part : Option String
  dtype : Option String
  style : Option String
  package : Option String
  pin_descriptions : List PinDesc
  pin_functions : List PinFunct
  pincount : Option Nat
  value : Option String
  tol : Option String
  ntol : Option String
  ptol : Option String
  volts : Option String
  desc : Option String
  attributes : List Attribute
deriving DecidableEq

/-- Embedding of `Device::from_parameters`. -/
def Device.from_parameters (params : String) : Except String Device := do
  let n ← runP stringP params
  .ok ⟨n, none, none, none, none, [], [], none, none, none, none, none, none, none, []⟩

/-- Embedding of `Device::update`: every optional scalar field follows
first-occurrence-wins (a later occurrence is not even parsed), the
multi-valued fields accumulate, and any other keyword is an error. -/
def Device.update (d : Device) (kp : KeywordParam) : Except String Device :=
  match kp.keyword with
  | "PART" =>
    if d.part = none then do
      let v ← runP stringP kp.parameter
      .ok { d with part := some v }
    else .ok d
  | "TYPE" =>
    if d.dtype = none then do
      let v ← runP stringP kp.parameter
      .ok { d with dtype := some v }
    else .ok d
  | "STYLE" =>
    if d.style = none then do
      let v ← runP stringP kp.parameter
      .ok { d with style := some v }
    else .ok d
  | "PACKAGE" =>
    if d.package = none then do
      let v ← runP stringP kp.parameter
      .ok { d with package := some v }
    else .ok d
  | "PINDESC" => do
    let v ← PinDesc.from_parameters kp.parameter
    .ok { d with pin_descriptions := d.pin_descriptions ++ [v] }
  | "PINFUNCT" => do
    let v ← PinFunct.from_parameters kp.parameter
    .ok { d with pin_functions := d.pin_functions ++ [v] }
  | "PINCOUNT" =>
    if d.pincount = none then do
      let v ← runP p_integer kp.parameter
      .ok { d with pincount := some v }
    else .ok d
  | "VALUE" =>
    if d.value = none then do
      let v ← runP stringP kp.parameter
      .ok { d with value := some v }
    else .ok d
  | "TOL" =>
    if d.tol = none then do
      let v ← runP stringP kp.parameter
      .ok { d with tol := some v }
    else .ok d
  | "NTOL" =>
    if d.ntol = none then do
      let v ← runP stringP kp.parameter
      .ok { d with ntol := some v }
    else .ok d
  | "PTOL" =>
    if d.ptol = none then do
      let v ← runP stringP kp.parameter
      .ok { d with ptol := some v }
    else .ok d
  | "VOLTS" =>
    if d.volts = none then do
      let v ← runP stringP kp.parameter
      .ok { d with volts := some v }
    else .ok d
  | "DESC" =>
    if d.desc = none then do
      let v ← runP stringP kp.parameter
      .ok { d with desc := some v }
    else .ok d
  | "ATTRIBUTE" => do
    let a ← runP attrib_ref kp.parameter
    .ok { d with attributes := d.attributes ++ [a] }
  | _ => .error ("Unexpected keyword in component: " ++ kp.keyword)

/-- State of the DEVICES section parser (src/parser/sections/devices.rs
`DevicesParserState`). -/
inductive DevicesParserState where
  | reset
  | device (d : Device)
deriving DecidableEq

/-- The DEVICES section parser (src/parser/sections/devices.rs
`DevicesParser`). -/
structure DevicesParser where
  state : DevicesParserState
  devices : List Device
deriving DecidableEq

/-- Embedding of `DevicesParser::ingest`. -/
def DevicesParser.ingest (p : DevicesParser) (kp : KeywordParam) : Except String DevicesParser :=
  match p.state with
  | .device d =>
    match kp.keyword with
    | "DEVICE" => do
      let nd ← Device.from_parameters kp.parameter
      .ok ⟨.device nd, p.devices ++ [d]⟩
    | _ => do
      let d2 ← d.update kp
      .ok ⟨.device d2, p.devices⟩
  | .reset =>
    match kp.keyword with
    | "DEVICE" => do
      let nd ← Device.from_parameters kp.parameter
      .ok ⟨.device nd, p.devices⟩
    | _ => .error ("Unexpected keyword in devices: " ++ kp.keyword)

/-- Embedding of `parse_devices` (src/parser/sections/devices.rs). -/
def parse_devices (params : List KeywordParam) : Except String (List Device) := do
  let p ← params.foldlM DevicesParser.ingest ⟨.reset, []⟩
  match p.state with
  | .device d => .ok (p.devices ++ [d])
  | .reset => .ok p.devices

/-- A component's shape reference (src/parser/sections/components.rs
`Shape`). -/
structure ComponentShape where
  name : String
  mirror : Mirror
  flip : Bool
deriving DecidableEq

/-- Embedding of components `Shape::from_parameters`. -/
def ComponentShape.from_parameters (params : String) : Except String ComponentShape :=
  runP
    (do
      let n ← stringP
      let _ ← spaces
      let m ← Gencad.mirror
      let _ ← spaces
      let f ← Gencad.flip
      pure (ComponentShape.mk n m f))
    params

/-- A component-level artwork reference (src/parser/sections/components.rs
`Artwork`). -/
structure ComponentArtwork where
  name : String
  xy : XYRef
  rotation : Rat
  mirror : Mirror
  flip : Bool
  attributes : List Attribute
deriving DecidableEq

/-- Embedding of components `Artwork::from_parameters`. -/
def ComponentArtwork.from_parameters (params : String) : Except String ComponentArtwork :=
  runP
    (do
      let n ← stringP
      let _ ← spaces
      let xy ← x_y_ref
      let _ ← spaces
      let r ← number
      let _ ← spaces
      let m ← Gencad.mirror
      let _ ← spaces
      let f ← Gencad.flip
      pure (ComponentArtwork.mk n xy r m f []))
    params

/-- A component-level fiducial (src/parser/sections/components.rs `Fid`). -/
structure ComponentFid where
  name : String
  pad_name : String
  xy : XYRef
  layer : Layer
  rotation : Rat
  mirror : Mirror
  flip : Bool
  attributes : List Attribute
deriving DecidableEq

/-- Embedding of components `Fid::from_parameters`. -/
def ComponentFid.from_parameters (params : String) : Except String ComponentFid :=
  runP
    (do
      let n ← stringP
      let _ ← spaces
      let pn ← stringP
      let _ ← spaces
      let xy ← x_y_ref
      let _ ← spaces
      let l ← Gencad.layer
      let _ ← spaces
      let r ← number
      let _ ← spaces
      let m ← Gencad.mirror
      let _ ← spaces
      let f ← Gencad.flip
      pure (ComponentFid.mk n pn xy l r m f []))
    params

/-- A component-level text (src/parser/sections/components.rs `Text`). -/
structure ComponentText where
  origin : XYRef
  text : TextPar
deriving DecidableEq

/-- Embedding of components `Text::from_parameters`. -/
def ComponentText.from_parameters (params : String) : Except String ComponentText :=
  runP
    (do
      let o ← x_y_ref
      let _ ← spaces
      let t ← text_par
      pure (ComponentText.mk o t))
    params

/-- A component sub-record (src/parser/sections/components.rs
`SubComponent`). -/
inductive SubComponent where
  | artwork (a : ComponentArtwork)
  | fid (f : ComponentFid)
deriving DecidableEq

/-- Append an attribute to an open component sub-record. -/
def SubComponent.pushAttr (s : SubComponent) (a : Attribute) : SubComponent :=
  match s with
  | .artwork x => .artwork { x with attributes := x.attributes ++ [a] }
  | .fid x => .fid { x with attributes := x.attributes ++ [a] }

/-- A placed component (src/parser/sections/components.rs `Component`). -/
structure Component where
  name : String
  device : String
  place : XYRef
  layer : Layer
  rotation : Rat
  shape : ComponentShape
  subcomponents : List SubComponent
  texts : List ComponentText
  sheet : Option String
  attributes : List Attribute
deriving DecidableEq

/-- A component under construction (src/parser/sections/components.rs
`ComponentPrototype`). -/
structure ComponentPrototype where
  name : String
  device : Option String
  place : Option XYRef
  layer : Option Layer
  rotation : Option Rat
  shape : Option ComponentShape
  subcomponents : List SubComponent
  texts : List ComponentText
  sheet : Option String
  attributes : List Attribute
deriving DecidableEq

/-- Embedding of `ComponentPrototype::to_component`: fails (with an
empty message, as in the source's `ok_or("")?`) if a required field was
never set. -/
def ComponentPrototype.to_component (p : ComponentPrototype) : Except String Component :=
  match p.device, p.place, p.layer, p.rotation, p.shape with
  | some d, some pl, some l, some r, some s =>
    .ok ⟨p.name, d, pl, l, r, s, p.subcomponents, p.texts, p.sheet, p.attributes⟩
  | _, _, _, _, _ => .error ""

/-- State of a single-component parser (src/parser/sections/components.rs
`ComponentParserState`). -/
inductive ComponentParserState where
  | component
  | subComponent (s : SubComponent)
deriving DecidableEq

/-- Parser for one component (src/parser/sections/components.rs
`ComponentParser`). -/
structure ComponentParser where
  state : ComponentParserState
  prototype : ComponentPrototype
deriving DecidableEq

/-- Embedding of `ComponentParser::from_parameters`. -/
def ComponentParser.from_parameters (params : String) : Except String ComponentParser := do
  let n ← runP stringP params
  .ok ⟨.component, ⟨n, none, none, none, none, none, [], [], none, []⟩⟩

/-- Embedding of `ComponentParser::done`. -/
def ComponentParser.done (cp : ComponentParser) : ComponentParser :=
  match cp.state with
  | .component => { cp with state := .component }
  | .subComponent s =>
    ⟨.component, { cp.prototype with subcomponents := cp.prototype.subcomponents ++ [s] }⟩

/-- Scalar-field part of `ComponentParser::ingest`, shared verbatim by
the `Component` state and (after `done()`) the `SubComponent` state. -/
def ComponentParser.applyField (cp : ComponentParser) (kp : KeywordParam) :
    Except String ComponentParser :=
  match kp.keyword with
  | "DEVICE" =>
    if cp.prototype.device = none then do
      let v ← runP stringP kp.parameter
      .ok { cp with prototype := { cp.prototype with device := some v } }
    else .ok cp
  | "PLACE" =>
    if cp.prototype.place = none then do
      let v ← runP x_y_ref kp.parameter
      .ok { cp with prototype := { cp.prototype with place := some v } }
    else .ok cp
  | "LAYER" =>
    if cp.prototype.layer = none then do
      let v ← runP layer kp.parameter
      .ok { cp with prototype := { cp.prototype with layer := some v } }
    else .ok cp
  | "ROTATION" =>
    if cp.prototype.rotation = none then do
      let v ← runP number kp.parameter
      .ok { cp with prototype := { cp.prototype with rotation := some v } }
    else .ok cp
  | "SHAPE" =>
    if cp.prototype.shape = none then do
      let v ← ComponentShape.from_parameters kp.parameter
      .ok { cp with prototype := { cp.prototype with shape := some v } }
    else .ok cp
  | "TEXT" => do
    let v ← ComponentText.from_parameters kp.parameter
    .ok { cp with prototype := { cp.prototype with texts := cp.prototype.texts ++ [v] } }
  | "SHEET" =>
    if cp.prototype.sheet = none then do
      let v ← runP stringP kp.parameter
      .ok { cp with prototype := { cp.prototype with sheet := some v } }
    else .ok cp
  | _ => .error ("Unexpected keyword in component: " ++ kp.keyword)

/-- Embedding of `ComponentParser::ingest`. -/
def ComponentParser.ingest (cp : ComponentParser) (kp : KeywordParam) :
    Except String ComponentParser :=
  match cp.state with
  | .component =>
    match kp.keyword with
    | "ATTRIBUTE" => do
      let a ← runP attrib_ref kp.parameter
      .ok { cp with prototype := { cp.prototype with attributes := cp.prototype.attributes ++ [a] } }
    | "ARTWORK" => do
      let a ← ComponentArtwork.from_parameters kp.parameter
      .ok { cp with state := .subComponent (.artwork a) }
    | "FID" => do
      let f ← ComponentFid.from_parameters kp.parameter
      .ok { cp with state := .subComponent (.fid f) }
    | _ => cp.applyField kp
  | .subComponent sub =>
    match kp.keyword with
    | "ATTRIBUTE" => do
      let a ← runP attrib_ref kp.parameter
      .ok { cp with state := .subComponent (sub.pushAttr a) }
    | "ARTWORK" => do
      let cp := cp.done
      let a ← ComponentArtwork.from_parameters kp.parameter
      .ok { cp with state := .subComponent (.artwork a) }
    | "FID" => do
      let cp := cp.done
      let f ← ComponentFid.from_parameters kp.parameter
      .ok { cp with state := .subComponent (.fid f) }
    | _ =>
      match kp.keyword with
      | "DEVICE" | "PLACE" | "LAYER" | "ROTATION" | "SHAPE" | "TEXT" | "SHEET" =>
        (cp.done).applyField kp
      | _ => .error ("Unexpected keyword in subcomponent: " ++ kp.keyword)

/-- State of the COMPONENTS section parser
(src/parser/sections/components.rs `ComponentsParserState`). -/
inductive ComponentsParserState where
  | reset
  | componentParser (p : ComponentParser)
deriving DecidableEq

/-- The COMPONENTS section parser (src/parser/sections/components.rs
`ComponentsParser`). -/
structure ComponentsParser where
  state : ComponentsParserState
  components : List Component
deriving DecidableEq

/-- Embedding of `ComponentsParser::ingest`. -/
def ComponentsParser.ingest (p : ComponentsParser) (kp : KeywordParam) :
    Except String ComponentsParser :=
  match p.state with
  | .componentParser cp =>
    match kp.keyword with
    | "COMPONENT" => do
      let c ← (cp.done).prototype.to_component
      let np ← ComponentParser.from_parameters kp.parameter
      .ok ⟨.componentParser np, p.components ++ [c]⟩
    | _ => do
      let cp2 ← cp.ingest kp
      .ok { p with state := .componentParser cp2 }
  | .reset =>
    match kp.keyword with
    | "COMPONENT" => do
      let np ← ComponentParser.from_parameters kp.parameter
      .ok { p with state := .componentParser np }
    | _ => .error ("Unexpected keyword in components: " ++ kp.keyword)

/-- Embedding of `parse_components` (src/parser/sections/components.rs):
fold, then flush through `to_component`, which can fail. -/
def parse_components (params : List KeywordParam) : Except String (List Component) := do
  let p ← params.foldlM ComponentsParser.ingest ⟨.reset, []⟩
  match p.state with
  | .componentParser cp => do
    let c ← (cp.done).prototype.to_component
    .ok (p.components ++ [c])
  | .reset => .ok p.components

/-- A pad of a padstack (src/parser/sections/padstacks.rs `Pad`). -/
structure PadstackPad where
  name : String
  layer : Layer
  rotation : Rat
  mirror : Mirror
deriving DecidableEq

/-- Embedding of padstacks `Pad::from_parameters`. -/
def PadstackPad.from_parameters (params : String) : Except String PadstackPad :=
  runP
    (do
      let n ← stringP
      let _ ← spaces
      let l ← Gencad.layer
      let _ ← spaces
      let r ← number
      let _ ← spaces
      let m ← Gencad.mirror
      pure (PadstackPad.mk n l r m))
    params

/-- A padstack (src/parser/sections/padstacks.rs `Padstack`). -/
structure Padstack where
  name : String
  drill_size : Rat
  pads : List PadstackPad
deriving DecidableEq

/-- Embedding of `Padstack::from_parameters`. -/
def Padstack.from_parameters (params : String) : Except String Padstack :=
  runP
    (do
      let n ← stringP
      let _ ← spaces
      let d ← number
      pure (Padstack.mk n d []))
    params

/-- Embedding of `Padstack::update`. -/
def Padstack.update (ps : Padstack) (kp : KeywordParam) : Except String Padstack :=
  match kp.keyword with
  | "PAD" => do
    let p ← PadstackPad.from_parameters kp.parameter
    .ok { ps with pads := ps.pads ++ [p] }
  | _ => .error ("Unexpected keyword in padstack: " ++ kp.keyword)

/-- State of the PADSTACKS parser (src/parser/sections/padstacks.rs
`PadstacksParserState`). -/
inductive PadstacksParserState where
  | reset
  | device (p : Padstack)
deriving DecidableEq

/-- The PADSTACKS section parser. -/
structure PadstacksParser where
  state : PadstacksParserState
  padstacks : List Padstack
  attributes : List Attribute
deriving DecidableEq

/-- The PADSTACKS section (src/parser/sections/padstacks.rs `Padstacks`). -/
structure Padstacks where
  padstacks : List Padstack
  attributes : List Attribute
deriving DecidableEq

/-- Embedding of `PadstacksParser::ingest`. -/
def PadstacksParser.ingest (p : PadstacksParser) (kp : KeywordParam) :
    Except String PadstacksParser :=
  match p.state with
  | .device ps =>
    match kp.keyword with
    | "PADSTACK" => do
      let np ← Padstack.from_parameters kp.parameter
      .ok ⟨.device np, p.padstacks ++ [ps], p.attributes⟩
    | "ATTRIBUTE" => do
      let a ← runP attrib_ref kp.parameter
      .ok { p with attributes := p.attributes ++ [a] }
    | _ => do
      let ps2 ← ps.update kp
      .ok { p with state := .device ps2 }
  | .reset =>
    match kp.keyword with
    | "PADSTACK" => do
      let np ← Padstack.from_parameters kp.parameter
      .ok { p with state := .device np }
    | "ATTRIBUTE" => do
      let a ← runP attrib_ref kp.parameter
      .ok { p with attributes := p.attributes ++ [a] }
    | _ => .error ("Unexpected keyword in padstacks: " ++ kp.keyword)

/-- Embedding of `Padstacks::new`. -/
def Padstacks.new (params : List KeywordParam) : Except String Padstacks := do
  let p ← params.foldlM PadstacksParser.ingest ⟨.reset, [], []⟩
  match p.state with
  | .device ps => .ok ⟨p.padstacks ++ [ps], p.attributes⟩
  | .reset => .ok ⟨p.padstacks, p.attributes⟩

/-- A signal node (src/parser/sections/signals.rs `Node`). -/
structure Node where
  component_name : String
  pin_name : String
deriving DecidableEq

/-- Embedding of `Node::from_parameters`. -/
def Node.from_parameters (params : String) : Except String Node :=
  runP
    (do
      let c ← stringP
      let _ ← spaces
      let p ← stringP
      pure (Node.mk c p))
    params

/-- A nail location (src/parser/sections/signals.rs `NailLoc`). -/
structure NailLoc where
  component_name : String
  pin_name : String
  tp_name : String
  xy : XYRef
  tan : String
  tin : String
  probe : String
  layer : Layer
deriving DecidableEq

/-- Embedding of `NailLoc::from_parameters`. -/
def NailLoc.from_parameters (params : String) : Except String NailLoc :=
  runP
    (do
      let c ← stringP
      let _ ← spaces
      let p ← stringP
      let _ ← spaces
      let tp ← stringP
      let _ ← spaces
      let xy ← x_y_ref
      let _ ← spaces
      let ta ← stringP
      let _ ← spaces
      let ti ← stringP
      let _ ← spaces
      let pr ← stringP
      let _ ← spaces
      let l ← Gencad.layer
      pure (NailLoc.mk c p tp xy ta ti pr l))
    params

/-- A signal (src/parser/sections/signals.rs `Signal`). -/
structure Signal where
  name : String
  nodes : List Node
  nail_locations : List NailLoc
deriving DecidableEq

/-- Embedding of `Signal::from_parameters`. -/
def Signal.from_parameters (params : String) : Except String Signal := do
  let n ← runP stringP params
  .ok ⟨n, [], []⟩

/-- Embedding of `Signal::update`. -/
def Signal.update (sg : Signal) (kp : KeywordParam) : Except String Signal :=
  match kp.keyword with
  | "NODE" => do
    let n ← Node.from_parameters kp.parameter
    .ok { sg with nodes := sg.nodes ++ [n] }
  | "NAILLOC" => do
    let n ← NailLoc.from_parameters kp.parameter
    .ok { sg with nail_locations := sg.nail_locations ++ [n] }
  | _ => .error ("Unexpected keyword in signal: " ++ kp.keyword)

/-- State of the SIGNALS parser (src/parser/sections/signals.rs
`SignalsParserState`). -/
inductive SignalsParserState where
  | reset
  | device (s : Signal)
deriving DecidableEq

/-- The SIGNALS section parser. -/
structure SignalsParser where
  state : SignalsParserState
  signals : List Signal
  attributes : List Attribute
deriving DecidableEq

/-- The SIGNALS section (src/parser/sections/signals.rs `Signals`). -/
structure Signals where
  signals : List Signal
  attributes : List Attribute
deriving DecidableEq

/-- Embedding of `SignalsParser::ingest`. -/
def SignalsParser.ingest (p : SignalsParser) (kp : KeywordParam) :
    Except String SignalsParser :=
  match p.state with
  | .device sg =>
    match kp.keyword with
    | "SIGNAL" => do
      let ns ← Signal.from_parameters kp.parameter
      .ok ⟨.device ns, p.signals ++ [sg], p.attributes⟩
    | "ATTRIBUTE" => do
      let a ← runP attrib_ref kp.parameter
      .ok { p with attributes := p.attributes ++ [a] }
    | _ => do
      let sg2 ← sg.update kp
      .ok { p with state := .device sg2 }
  | .reset =>
    match kp.keyword with
    | "SIGNAL" => do
      let ns ← Signal.from_parameters kp.parameter
      .ok { p with state := .device ns }
    | "ATTRIBUTE" => do
      let a ← runP attrib_ref kp.parameter
      .ok { p with attributes := p.attributes ++ [a] }
    | _ => .error ("Unexpected keyword in signals: " ++ kp.keyword)

/-- Embedding of `Signals::new`. -/
def Signals.new (params : List KeywordParam) : Except String Signals := do
  let p ← params.foldlM SignalsParser.ingest ⟨.reset, [], []⟩
  match p.state with
  | .device sg => .ok ⟨p.signals ++ [sg], p.attributes⟩
  | .reset => .ok ⟨p.signals, p.attributes⟩

/-- The HEADER section (src/sections/header.rs `Header`). -/
structure Header where
  gencad_version : Rat
  user : String
  drawing : String
  revision : String
  units : Dimension
  origin : XYRef
  intertrack : Rat
  attributes : List Attribute
deriving DecidableEq

/-- Accumulator of the `Header::new` loop: every field optional. -/
structure HeaderAcc where
  gencad_version : Option Rat
  user : Option String
  drawing : Option String
  revision : Option String
  units : Option Dimension
  origin : Option XYRef
  intertrack : Option Rat
  attributes : List Attribute
deriving DecidableEq

/-- One iteration of the `Header::new` loop: each required keyword is
parsed only while its field is unset (first occurrence wins), attributes
accumulate, and unrecognized keywords are skipped (`_ => {}`). -/
def headerStep (acc : HeaderAcc) (kp : KeywordParam) : Except String HeaderAcc :=
  match kp.keyword with
  | "GENCAD" =>
    if acc.gencad_version = none then do
      let v ← runP number kp.parameter
      .ok { acc with gencad_version := some v }
    else .ok acc
  | "USER" =>
    if acc.user = none then do
      let v ← runP stringP kp.parameter
      .ok { acc with user := some v }
    else .ok acc
  | "DRAWING" =>
    if acc.drawing = none then do
      let v ← runP stringP kp.parameter
      .ok { acc with drawing := some v }
    else .ok acc
  | "REVISION" =>
    if acc.revision = none then do
      let v ← runP stringP kp.parameter
      .ok { acc with revision := some v }
    else .ok acc
  | "UNITS" =>
    if acc.units = none then do
      let v ← runP dimension kp.parameter
      .ok { acc with units := some v }
    else .ok acc
  | "ORIGIN" =>
    if acc.origin = none then do
      let v ← runP x_y_ref kp.parameter
      .ok { acc with origin := some v }
    else .ok acc
  | "INTERTRACK" =>
    if acc.intertrack = none then do
      let v ← runP number kp.parameter
      .ok { acc with intertrack := some v }
    else .ok acc
  | "ATTRIBUTE" => do
    let a ← runP attrib_ref kp.parameter
    .ok { acc with attributes := acc.attributes ++ [a] }
  | _ => .ok acc

/-- Embedding of `Header::new` (src/sections/header.rs): fold the step,
then the `ok_or` chain checks the required fields in declaration order,
naming the first missing one. -/
def Header.new (params : List KeywordParam) : Except String Header := do
  let acc ← params.foldlM headerStep ⟨none, none, none, none, none, none, none, []⟩
  match acc.gencad_version with
  | none => .error "missing GENCAD"
  | some gv =>
    match acc.user with
    | none => .error "missing USER"
    | some u =>
      match acc.drawing with
      | none => .error "missing DRAWING"
      | some dr =>
        match acc.revision with
        | none => .error "missing REVISION"
        | some rv =>
          match acc.units with
          | none => .error "missing UNITS"
          | some un =>
            match acc.origin with
            | none => .error "missing ORIGIN"
            | some o =>
              match acc.intertrack with
              | none => .error "missing INTERTRACK"
              | some it => .ok ⟨gv, u, dr, rv, un, o, it, acc.attributes⟩

/-- A raw statement of an unknown section (src/parser/sections/unknown.rs
`Statement`). -/
structure Statement where
  keyword : String
  parameter : String
deriving DecidableEq

/-- An unknown section (src/parser/sections/unknown.rs `Unknown`). -/
structure Unknown where
  name : String
  statements : List Statement
deriving DecidableEq

/-- Embedding of `Unknown::new`: copy the name and all pairs in order. -/
def Unknown.new (name : String) (params : List KeywordParam) : Except String Unknown :=
  .ok ⟨name, params.map (fun kp => ⟨kp.keyword, kp.parameter⟩)⟩

/-- Embedding of `take_newlines` (src/parser/mod.rs): leading carriage
returns, then at least one line feed, then any run of CR/LF. -/
def take_newlines : Parser Unit := do
  let _ ← takeWhileP (fun c => c = '\r')
  let _ ← takeWhile1P (fun c => c = '\n')
  let _ ← takeWhileP (fun c => c = '\r' || c = '\n')
  pure ()

/-- Membership in the `is_a` set of `keyword`: the uppercase letters. -/
def isUpperAZ (c : Char) : Bool := 'A' ≤ c && c ≤ 'Z'

/-- Embedding of `keyword` (src/parser/mod.rs): `is_a` over the
uppercase letters. -/
def keywordTok : Parser Chars := takeWhile1P isUpperAZ

/-- Embedding of `section_start`: `$NAME` followed by newlines. -/
def section_start : Parser String := do
  let _ ← tagS "$"
  let k ← keywordTok
  take_newlines
  pure (String.mk k)

/-- Embedding of `section_end`: `$ENDNAME` followed by newlines. -/
def section_end : Parser String := do
  let _ ← tagS "$END"
  let k ← keywordTok
  take_newlines
  pure (String.mk k)

/-- Embedding of `KeywordParam::parse`: keyword, one space, the rest of
the line, newlines. -/
def keywordParamTok : Parser KeywordParam := do
  let k ← keywordTok
  let _ ← tagS " "
  let p ← takeTillP (fun c => c = '\r' || c = '\n')
  take_newlines
  pure ⟨String.mk k, String.mk p⟩

/-- A raw section produced by the tokenizer (src/parser/mod.rs
`Section`). -/
structure RawSection where
  name : String
  parameters : List KeywordParam
deriving DecidableEq

/-- Embedding of `Section::parse`: start tag, keyword/parameter lines,
end tag; mismatched names fail. -/
def sectionTok : Parser RawSection := do
  let st ← section_start
  let ps ← many0P keywordParamTok
  let en ← section_end
  if st = en then pure ⟨st, ps⟩ else failP

/-- Embedding of `sections` (src/parser/mod.rs): one or more sections. -/
def sectionsTok : Parser (List RawSection) := many1P sectionTok

/-- A parsed section (src/parser/mod.rs `ParsedSection`). -/
inductive ParsedSection where
  | header (h : Header)
  | board (b : Board)
  | pads (p : List Pad)
  | padstacks (p : Padstacks)
  | shapes (s : List Shape)
  | components (c : List Component)
  | devices (d : List Device)
  | signals (s : Signals)
  | unknown (u : Unknown)
deriving DecidableEq

/-- Dispatch of one raw section by name, as in the `match section.name`
of `ParsedGencadFile::new`; any unrecognized name goes to `Unknown`. -/
def dispatchSection (sec : RawSection) : Except String ParsedSection :=
  if sec.name = "HEADER" then do
    let h ← Header.new sec.parameters
    .ok (.header h)
  else if sec.name = "BOARD" then do
    let b ← Board.new sec.parameters
    .ok (.board b)
  else if sec.name = "PADS" then do
    let p ← parse_pads sec.parameters
    .ok (.pads p)
  else if sec.name = "PADSTACKS" then do
    let p ← Padstacks.new sec.parameters
    .ok (.padstacks p)
  else if sec.name = "SHAPES" then do
    let s ← parse_shapes sec.parameters
    .ok (.shapes s)
  else if sec.name = "COMPONENTS" then do
    let c ← parse_components sec.parameters
    .ok (.components c)
  else if sec.name = "DEVICES" then do
    let d ← parse_devices sec.parameters
    .ok (.devices d)
  else if sec.name = "SIGNALS" then do
    let s ← Signals.new sec.parameters
    .ok (.signals s)
  else do
    let u ← Unknown.new sec.name sec.parameters
    .ok (.unknown u)

/-- A fully parsed GenCAD file (src/parser/mod.rs `ParsedGencadFile`). -/
structure ParsedGencadFile where
  sections : List ParsedSection
deriving DecidableEq

/-- Embedding of `ParsedGencadFile::new`: tokenize all sections, fail if
tokenization fails or any input remains unconsumed, then dispatch each
raw section to its builder. -/
def ParsedGencadFile.new (input : Chars) : Except String ParsedGencadFile :=
  match sectionsTok input with
  | .ok remaining secs =>
    if remaining ≠ [] then .error "Unparsed data remaining in file"
    else do
      let ps ← secs.mapM dispatchSection
      .ok ⟨ps⟩
  | _ => .error "parse error"

/-- Rust's `Vec::join("\r\n")`, written as a recursion: the pieces
separated by CRLF, the empty list giving the empty string. -/
def crlfJoin : List String → String
  | [] => ""
  | [a] => a
  | a :: rest => a ++ "\r\n" ++ crlfJoin rest

/-- Modelled from the spec: the `Display` rendering of a `Number`
(`f32`) used by the serializer.  All numbers rendered by the theorems in
this development are integers, for which Rust prints the plain integer;
the non-integral branch is never exercised by any claim. -/
def numberToGencad (q : Rat) : String :=
  if q.den = 1 then toString q.num else toString q

/-- Modelled from the spec: `impl ToGencadString for String` is not
under src/.  Following the string grammar of the spec, a string that is
empty, contains a space, or begins with a quote is rendered in quoted
form with `"` escaped as `\"`; any other string is rendered unquoted. -/
def stringToGencad (s : String) : String :=
  if s = "" ∨ s.data.any (fun c => c = ' ') ∨ s.data.head? = some '"' then
    "\"" ++ String.mk (s.data.flatMap (fun c => if c = '"' then ['\\', '"'] else [c])) ++ "\""
  else s

/-- Embedding of `Layer::to_gencad_string` (src/types/layer.rs). -/
def Layer.to_gencad_string : Layer → String
  | .top => "TOP"
  | .bottom => "BOTTOM"
  | .soldermaskTop => "SOLDERMASK_TOP"
  | .soldermaskBottom => "SOLDERMASK_BOTTOM"
  | .silkscreenTop => "SILKSCREEN_TOP"
  | .silkscreenBottom => "SILKSCREEN_BOTTOM"
  | .solderpasteTop => "SOLDERPASTE_TOP"
  | .solderpasteBottom => "SOLDERPASTE_BOTTOM"
  | .powerX n => "POWER" ++ toString n
  | .groundX n => "GROUND" ++ toString n
  | .inner => "INNER"
  | .innerX n => "INNER" ++ toString n
  | .all => "ALL"
  | .layerX n => "LAYER" ++ toString n
  | .layersetX n => "LAYERSET" ++ toString n

/-- Modelled from the spec: `impl ToGencadString for Mirror` is not
under src/; the Mirror enumeration renders as `0`, `MIRRORX`, `MIRRORY`. -/
def Mirror.to_gencad_string : Mirror → String
  | .not => "0"
  | .mirrorX => "MIRRORX"
  | .mirrorY => "MIRRORY"

/-- Modelled from the spec: `impl ToGencadString for XYRef` is not under
src/; a coordinate pair renders as the two numbers separated by a space. -/
def XYRef.to_gencad_string (p : XYRef) : String :=
  numberToGencad p.x ++ " " ++ numberToGencad p.y

/-- Embedding of `LineRef::to_gencad_string` (src/types/line_ref.rs). -/
def LineRef.to_gencad_string (l : LineRef) : String :=
  l.start.to_gencad_string ++ " " ++ l.stop.to_gencad_string

/-- Modelled from the spec: `impl ToGencadString for CircleRef` is not
under src/; a circle renders as its center pair then its radius. -/
def CircleRef.to_gencad_string (c : CircleRef) : String :=
  c.center.to_gencad_string ++ " " ++ numberToGencad c.radius

/-- Embedding of `RectangleRef::to_gencad_string`
(src/types/rectangle_ref.rs). -/
def RectangleRef.to_gencad_string (r : RectangleRef) : String :=
  r.origin.to_gencad_string ++ " " ++ numberToGencad r.x ++ " " ++ numberToGencad r.y

/-- Embedding of `ArcRef::to_gencad_string` (src/types/arc_ref.rs). -/
def ArcRef.to_gencad_string : ArcRef → String
  | .circular a =>
    a.start.to_gencad_string ++ " " ++ a.stop.to_gencad_string ++ " " ++
      a.center.to_gencad_string
  | .elliptical a =>
    a.start.to_gencad_string ++ " " ++ a.stop.to_gencad_string ++ " " ++
      a.center.to_gencad_string ++ " " ++ numberToGencad a.major_radius ++ " " ++
      numberToGencad a.minor_radius

/-- Modelled from the spec: `impl ToGencadString for Attribute` is not
under src/; an attribute renders as an `ATTRIBUTE` line with its three
strings. -/
def Attribute.to_gencad_string (a : Attribute) : String :=
  "ATTRIBUTE " ++ stringToGencad a.category ++ " " ++ stringToGencad a.name ++ " " ++
    stringToGencad a.data

/-- Rendering of `Vec<Attribute>` (the `impl_to_gencad_string_for_vec`
macro, src/serialization.rs): items joined with CRLF, empty list gives
the empty string. -/
def attrsToGencad (attrs : List Attribute) : String :=
  crlfJoin (attrs.map Attribute.to_gencad_string)

/-- Embedding of `Insert::to_gencad_string`
(src/parser/sections/shapes.rs): includes the `INSERT ` prefix. -/
def Insert.to_gencad_string : Insert → String
  | .th => "INSERT TH"
  | .axial => "INSERT AXIAL"
  | .radial => "INSERT RADIAL"
  | .dip => "INSERT DIP"
  | .sip => "INSERT SIP"
  | .zip => "INSERT ZIP"
  | .conn => "INSERT CONN"
  | .smd => "INSERT SMD"
  | .other => "INSERT OTHER"

/-- Embedding of `ShapeElement::to_gencad_string`
(src/parser/sections/shapes.rs). -/
def ShapeElement.to_gencad_string : ShapeElement → String
  | .line l => "LINE " ++ l.to_gencad_string
  | .arc a => "ARC " ++ a.to_gencad_string
  | .circle c => "CIRCLE " ++ c.to_gencad_string
  | .rectangle r => "RECTANGLE " ++ r.to_gencad_string
  | .fiducial xy => "FIDUCIAL " ++ xy.to_gencad_string

/-- Embedding of shapes `Artwork::to_gencad_string`. -/
def ShapesArtwork.to_gencad_string (a : ShapesArtwork) : String :=
  crlfJoin
    ["ARTWORK " ++ stringToGencad a.name ++ " " ++ a.xy.to_gencad_string ++ " " ++
      numberToGencad a.rotation ++ " " ++ a.mirror.to_gencad_string,
     attrsToGencad a.attributes]

/-- Embedding of shapes `Fid::to_gencad_string`. -/
def ShapesFid.to_gencad_string (f : ShapesFid) : String :=
  crlfJoin
    ["FID " ++ stringToGencad f.name ++ " " ++ stringToGencad f.pad_name ++ " " ++
      f.xy.to_gencad_string ++ " " ++ f.layer.to_gencad_string ++ " " ++
      numberToGencad f.rotation ++ " " ++ f.mirror.to_gencad_string,
     attrsToGencad f.attributes]

/-- Embedding of `Pin::to_gencad_string`. -/
def Pin.to_gencad_string (p : Pin) : String :=
  crlfJoin
    ["PIN " ++ stringToGencad p.name ++ " " ++ stringToGencad p.pad_name ++ " " ++
      p.xy.to_gencad_string ++ " " ++ p.layer.to_gencad_string ++ " " ++
      numberToGencad p.rotation ++ " " ++ p.mirror.to_gencad_string,
     attrsToGencad p.attributes]

/-- Embedding of `SubShape::to_gencad_string`. -/
def SubShape.to_gencad_string : SubShape → String
  | .artwork a => a.to_gencad_string
  | .fid f => f.to_gencad_string
  | .pin p => p.to_gencad_string

/-- Embedding of `Shape::to_gencad_string`
(src/parser/sections/shapes.rs): the `SHAPE` line, then elements, the
optional `INSERT` and `HEIGHT` lines, sub-records, and the attribute
block (pushed even when empty), joined with CRLF. -/
def Shape.to_gencad_string (s : Shape) : String :=
  crlfJoin
    (["SHAPE " ++ stringToGencad s.name] ++
      s.elements.map ShapeElement.to_gencad_string ++
      (match s.insert with
       | some i => [i.to_gencad_string]
       | none => []) ++
      (match s.height with
       | some h => ["HEIGHT " ++ numberToGencad h]
       | none => []) ++
      s.subshapes.map SubShape.to_gencad_string ++
      [attrsToGencad s.attributes])

/-- Embedding of `impl_to_gencad_string_for_section!(Shape, "$SHAPES",
"$ENDSHAPES")`: the section wrapper around a list of shapes. -/
def shapesSectionToGencad (ss : List Shape) : String :=
  crlfJoin (["$SHAPES"] ++ ss.map Shape.to_gencad_string ++ ["$ENDSHAPES"])

/-- Embedding of `Statement::to_gencad_string`
(src/parser/sections/unknown.rs): the raw pair, no conversion. -/
def Statement.to_gencad_string (s : Statement) : String :=
  s.keyword ++ " " ++ s.parameter

/-- Embedding of `Unknown::to_gencad_string`
(src/parser/sections/unknown.rs): `$NAME`, the statements joined with
CRLF, `$ENDNAME`, all joined with CRLF, with no terminator after
`$ENDNAME`. -/
def Unknown.to_gencad_string (u : Unknown) : String :=
  crlfJoin
    ["$" ++ u.name,
     crlfJoin (u.statements.map Statement.to_gencad_string),
     "$END" ++ u.name]

/-- The eight section names recognized by the dispatch of
`ParsedGencadFile::new`; any other name is preserved as an opaque
section. -/
def knownSectionNames : List String :=
  ["HEADER", "BOARD", "PADS", "PADSTACKS", "SHAPES", "COMPONENTS", "DEVICES", "SIGNALS"]

/-- A keyword in the tokenizer's grammar: a nonempty run of uppercase
letters. -/
def goodKeyword (k : String) : Prop :=
  k.data ≠ [] ∧ ∀ c ∈ k.data, isUpperAZ c = true

instance (k : String) : Decidable (goodKeyword k) := by
  unfold goodKeyword
  infer_instance

/-- A parameter in the tokenizer's grammar: any characters other than a
line terminator. -/
def goodParam (p : String) : Prop :=
  ∀ c ∈ p.data, c ≠ '\r' ∧ c ≠ '\n'

instance (p : String) : Decidable (goodParam p) := by
  unfold goodParam
  infer_instance

/-- A keyword/parameter line the tokenizer accepts. -/
def goodStmt (s : Statement) : Prop :=
  goodKeyword s.keyword ∧ goodParam s.parameter

instance (s : Statement) : Decidable (goodStmt s) := by
  unfold goodStmt
  infer_instance

/-- The bytes of one `KEYWORD parameter` line, CRLF-terminated. -/
def statementLineChars (s : Statement) : Chars :=
  s.keyword.data ++ ' ' :: s.parameter.data ++ ['\r', '\n']

/-- The bytes of a whole `$NAME … $ENDNAME` section whose every line is
terminated by one CRLF, the file-final terminator included. -/
def unknownSectionChars (name : String) (stmts : List Statement) : Chars :=
  '$' :: (name.data ++ ('\r' :: '\n' ::
    ((stmts.map statementLineChars).flatten ++
      ('$' :: 'E' :: 'N' :: 'D' :: (name.data ++ ['\r', '\n'])))))

/-- A representative HEADER parameter list containing each required
keyword exactly once, with values in the grammar of each field. -/
def headerBase : List KeywordParam :=
  [⟨"GENCAD", "1.4"⟩, ⟨"USER", "joe"⟩, ⟨"DRAWING", "d1"⟩, ⟨"REVISION", "r1"⟩,
   ⟨"UNITS", "USER 1200"⟩, ⟨"ORIGIN", "0 0"⟩, ⟨"INTERTRACK", "0"⟩]

/-- The seven required HEADER keywords, in the order the source checks
them. -/
def requiredHeaderKeywords : List String :=
  ["GENCAD", "USER", "DRAWING", "REVISION", "UNITS", "ORIGIN", "INTERTRACK"]

/-- A legally constructed shape whose insert style is set. -/
def shapeWithInsert : Shape := ⟨"S", [], some .th, none, [], []⟩

/-- Helper: binding a success in `Except` applies the continuation. -/
theorem exBind_ok {ε α β : Type} (a : α) (f : α → Except ε β) :
    (Except.ok a >>= f) = f a := rfl

/-- Helper: binding an error in `Except` propagates the error. -/
theorem exBind_error {ε α β : Type} (e : ε) (f : α → Except ε β) :
    ((Except.error e : Except ε α) >>= f) = Except.error e := rfl

/-- Helper: `many1` never returns an empty list. -/
theorem many1P_ne_nil {α : Type} {p : Parser α} {s r : Chars} {xs : List α}
    (h : many1P p s = .ok r xs) : xs ≠ [] := by
  unfold many1P at h
  cases hp : p s <;> rw [hp] at h <;> simp at h
  case ok r1 a =>
    cases hm : many0P p r1 <;> rw [hm] at h <;> simp at h
    case ok r2 as =>
      obtain ⟨-, h2⟩ := h
      rw [← h2]
      simp

/-- Claim C1 (status: code_bug).  The round-trip property fails for a
`Shape` carrying a `Some` insert style: serializing
`shapeWithInsert` (name `S`, insert `TH`) and parsing the result yields
the same shape with `insert = None`, because `ShapesParser::ingest`
intercepts the `INSERT` line while the shape is open and stores it only
as the section-level default (the `INSERT` arm of `ShapeParser::ingest`
is unreachable), so `parse(serialize(e)) ≠ e`. -/
theorem c1_shape_insert_roundtrip_bug :
    ParsedGencadFile.new ((shapesSectionToGencad [shapeWithInsert]) ++ "\r\n").data =
      .ok ⟨[.shapes [{ shapeWithInsert with insert := none }]]⟩ ∧
    ({ shapeWithInsert with insert := none } : Shape) ≠ shapeWithInsert := by
  constructor
  · decide
  · decide

/-- Claim C2, counterexample: in the PADS section (and likewise in
BOARD) a keyword admitted by no rule is silently skipped and the parse
succeeds, contradicting the claim that every such keyword fails the
section parse with an error naming it. -/
theorem c2_counterexample :
    parse_pads [⟨"BOGUS", "x"⟩] = .ok [] ∧
    Board.new [⟨"BOGUS", "x"⟩] = .ok ⟨none, [], [], []⟩ := by
  constructor
  · decide
  · decide

/-- Claim C2 (status: corrected).  Amended: in the SHAPES, COMPONENTS,
DEVICES, SIGNALS and PADSTACKS sections an unadmitted keyword fails the
parse with an error naming the offending keyword, but the PADS and
BOARD section parsers (and the HEADER parser) silently skip keywords
they do not recognize. -/
theorem c2_unexpected_keyword_behaviour :
    parse_shapes [⟨"BOGUS", "x"⟩] = .error "Unexpected keyword in shapes: BOGUS" ∧
    parse_components [⟨"BOGUS", "x"⟩] = .error "Unexpected keyword in components: BOGUS" ∧
    parse_devices [⟨"BOGUS", "x"⟩] = .error "Unexpected keyword in devices: BOGUS" ∧
    Signals.new [⟨"BOGUS", "x"⟩] = .error "Unexpected keyword in signals: BOGUS" ∧
    Padstacks.new [⟨"BOGUS", "x"⟩] = .error "Unexpected keyword in padstacks: BOGUS" ∧
    parse_pads [⟨"BOGUS", "x"⟩] = .ok [] ∧
    Board.new [⟨"BOGUS", "x"⟩] = .ok ⟨none, [], [], []⟩ ∧
    Header.new (headerBase ++ [⟨"BOGUS", "x"⟩]) = Header.new headerBase := by
  refine ⟨by decide, by decide, by decide, by decide, by decide, by decide, by decide, by decide⟩

/-- Claim C4 (status: confirmed).  Two consecutive `PIN` lines inside
one `SHAPE` yield exactly two sub-records (the first is flushed the
instant the second `PIN` arrives), and at end of input any open
candidate is flushed unconditionally: `finalize` is total (it cannot
return an error) and appends the open shape, itself completed by
`done`, which flushes any open sub-record. -/
theorem c4_implicit_close :
    (parse_shapes [⟨"SHAPE", "S"⟩, ⟨"PIN", "1 p1 0 0 TOP 0 0"⟩, ⟨"PIN", "2 p1 0 0 TOP 0 0"⟩] =
      .ok [⟨"S", [], none, none,
            [.pin ⟨"1", "p1", ⟨0, 0⟩, .top, 0, .not, []⟩,
             .pin ⟨"2", "p1", ⟨0, 0⟩, .top, 0, .not, []⟩], []⟩]) ∧
    (∀ (sp : ShapesParser) (p : ShapeParser), sp.state = .shapeParser p →
      sp.finalize = sp.shapes ++ [p.done.shape]) := by
  constructor
  · decide
  · intro sp p h
    obtain ⟨st, ins, shs⟩ := sp
    cases h
    rfl

/-- Witness for the quantified part of `c4_implicit_close`: a parser
left open on a shape with a pending pin sub-record flushes both at
finalization. -/
theorem c4_implicit_close_witness :
    ShapesParser.finalize
        ⟨.shapeParser ⟨.subShape (.pin ⟨"1", "p1", ⟨0, 0⟩, .top, 0, .not, []⟩),
          ⟨"S", [], none, none, [], []⟩⟩, none, []⟩ =
      [] ++ [(ShapeParser.done
        ⟨.subShape (.pin ⟨"1", "p1", ⟨0, 0⟩, .top, 0, .not, []⟩),
          ⟨"S", [], none, none, [], []⟩⟩).shape] :=
  c4_implicit_close.2 _ _ rfl

/-- Claim C5 (status: confirmed).  An `ATTRIBUTE` keyword attaches to
the innermost open record: while a BOARD subsection is open it is
appended to that subsection (all board-level fields unchanged), while no
subsection is open it is appended to the board's own attribute list;
concretely, an `ATTRIBUTE` after a `MASK` lands in the mask, the same
line before the `MASK` lands in the board. -/
theorem c5_attribute_scoping :
    (∀ (acc : BoardAcc) (sub : Subsection) (a : String) (attr : Attribute),
      acc.state = .subsection sub → runP attrib_ref a = .ok attr →
      boardStep acc ⟨"ATTRIBUTE", a⟩ = .ok { acc with state := .subsection (sub.pushAttr attr) }) ∧
    (∀ (acc : BoardAcc) (a : String) (attr : Attribute),
      acc.state = .board → runP attrib_ref a = .ok attr →
      boardStep acc ⟨"ATTRIBUTE", a⟩ = .ok { acc with attributes := acc.attributes ++ [attr] }) ∧
    (Board.new [⟨"MASK", "m TOP"⟩, ⟨"ATTRIBUTE", "a b c"⟩] =
      .ok ⟨none, [], [], [.mask ⟨"m", .top, [], [⟨"a", "b", "c"⟩]⟩]⟩) ∧
    (Board.new [⟨"ATTRIBUTE", "a b c"⟩, ⟨"MASK", "m TOP"⟩] =
      .ok ⟨none, [], [⟨"a", "b", "c"⟩], [.mask ⟨"m", .top, [], []⟩]⟩) := by
  refine ⟨?_, ?_, by decide, by decide⟩
  · intro acc sub a attr h1 h2
    obtain ⟨t, o, ats, subs, st⟩ := acc
    cases h1
    simp [boardStep, h2, exBind_ok]
  · intro acc a attr h1 h2
    obtain ⟨t, o, ats, subs, st⟩ := acc
    cases h1
    simp [boardStep, h2, exBind_ok]

/-- Witness for the quantified parts of `c5_attribute_scoping`, at a
board accumulator with an open mask and at one with no open subsection. -/
theorem c5_attribute_scoping_witness :
    boardStep ⟨none, [], [], [], .subsection (.mask ⟨"m", .top, [], []⟩)⟩ ⟨"ATTRIBUTE", "a b c"⟩ =
      .ok ⟨none, [], [], [], .subsection ((Subsection.mask ⟨"m", .top, [], []⟩).pushAttr ⟨"a", "b", "c"⟩)⟩ ∧
    boardStep ⟨none, [], [], [], .board⟩ ⟨"ATTRIBUTE", "a b c"⟩ =
      .ok ⟨none, [], [] ++ [⟨"a", "b", "c"⟩], [], .board⟩ :=
  ⟨c5_attribute_scoping.1 _ _ _ _ rfl (by decide),
   c5_attribute_scoping.2.1 _ _ _ rfl (by decide)⟩

/-- Claim C6 (status: confirmed).  For each required HEADER keyword `K`,
parsing a HEADER parameter list carrying every required keyword except
`K` fails, and the error names exactly `K`. -/
theorem c6_header_required_fields :
    ∀ K ∈ requiredHeaderKeywords,
      Header.new (headerBase.filter (fun kp => kp.keyword ≠ K)) = .error ("missing " ++ K) := by
  intro K hK
  fin_cases hK <;> decide

/-- Witness for `c6_header_required_fields` at `K = UNITS`. -/
theorem c6_header_required_fields_witness :
    Header.new (headerBase.filter (fun kp => kp.keyword ≠ "UNITS")) = .error ("missing " ++ "UNITS") :=
  c6_header_required_fields "UNITS" (by decide)

/-- Claim C7 (status: confirmed).  First-wins for singular optional
fields: once a device's `part` is set, a later `PART` line leaves the
device completely unchanged and raises no error — its parameter is not
even parsed, so it cannot fail the parse; concretely, two `PART` lines
in one `DEVICE` keep the first value. -/
theorem c7_first_wins :
    (∀ (d : Device) (s v : String), d.part = some v →
      Device.update d ⟨"PART", s⟩ = .ok d) ∧
    parse_devices [⟨"DEVICE", "d"⟩, ⟨"PART", "a"⟩, ⟨"PART", "b"⟩] =
      .ok [⟨"d", some "a", none, none, none, [], [], none, none, none, none, none, none, none, []⟩] := by
  constructor
  · intro d s v h
    simp [Device.update, h]
  · decide

/-- Witness for the quantified part of `c7_first_wins`: a second `PART`
line with an unparseable parameter (a lone quote) still succeeds and
changes nothing. -/
theorem c7_first_wins_witness :
    Device.update ⟨"d", some "a", none, none, none, [], [], none, none, none, none, none, none, none, []⟩
        ⟨"PART", "\""⟩ =
      .ok ⟨"d", some "a", none, none, none, [], [], none, none, none, none, none, none, none, []⟩ :=
  c7_first_wins.1 _ "\"" "a" rfl

/-- Claim C8 (status: confirmed).  Arc arity disambiguation: six
numbers decode to the circular variant (start, end, center), the same
six followed by two more decode to the elliptical variant with major
radius 1000 and minor radius 200 (the elliptical form is tried first
and wins exactly when the two extra numbers are present). -/
theorem c8_arc_arity :
    arc_ref "1000 -200 1000 200 1000 0".data =
      .ok [] (.circular ⟨⟨1000, -200⟩, ⟨1000, 200⟩, ⟨1000, 0⟩⟩) ∧
    arc_ref "1000 -200 1000 200 1000 0 1000 200".data =
      .ok [] (.elliptical ⟨⟨1000, -200⟩, ⟨1000, 200⟩, ⟨1000, 0⟩, 1000, 200⟩) := by
  constructor
  · decide
  · decide

/-- Claim C9 (status: confirmed).  An `INSERT` keyword arriving while a
shape is open is intercepted by `ShapesParser::ingest`: it only replaces
the section-level default insert style, leaving the open `ShapeParser`
(hence every field of the open shape, including its `insert` fixed at
open time) and the completed-shape list untouched; and a shape opened by
`ShapeParser::from_parameters` takes exactly the default in force at
that moment. -/
theorem c9_insert_updates_default_only :
    (∀ (sp : ShapesParser) (p : ShapeParser) (s str : String) (i : Insert),
      sp.state = .shapeParser p → runP stringP s = .ok str → Insert.new str = .ok i →
      sp.ingest ⟨"INSERT", s⟩ = .ok { sp with insert := some i }) ∧
    (∀ (n : String) (ins : Option Insert) (ps : ShapeParser),
      ShapeParser.from_parameters n ins = .ok ps → ps.shape.insert = ins) := by
  constructor
  · intro sp p s str i h1 h2 h3
    obtain ⟨st, df, shs⟩ := sp
    cases h1
    simp [ShapesParser.ingest, h2, h3, exBind_ok]
  · intro n ins ps h
    unfold ShapeParser.from_parameters at h
    cases hr : runP stringP n <;> rw [hr] at h <;>
      simp [exBind_ok, exBind_error] at h
    rw [← h]

/-- Witness for `c9_insert_updates_default_only`: with shape `A` open,
`INSERT TH` only sets the default, and a shape then opened with that
default carries it. -/
theorem c9_insert_updates_default_only_witness :
    ShapesParser.ingest ⟨.shapeParser ⟨.shape, ⟨"A", [], none, none, [], []⟩⟩, none, []⟩
        ⟨"INSERT", "TH"⟩ =
      .ok ⟨.shapeParser ⟨.shape, ⟨"A", [], none, none, [], []⟩⟩, some .th, []⟩ ∧
    (ShapeParser.mk .shape ⟨"B", [], some .th, none, [], []⟩).shape.insert = some .th :=
  ⟨c9_insert_updates_default_only.1 _ _ _ "TH" _ rfl (by decide) (by decide),
   c9_insert_updates_default_only.2 "B" (some .th) _ (by decide)⟩

/-- Claim C10 (status: confirmed).  Whole-file parsing succeeds only on
one-or-more complete sections with nothing left over: a successful
`ParsedGencadFile::new` implies the section tokenizer consumed the whole
input and produced a nonempty section list; an empty input and an input
with bytes after the last `$END` line both produce errors. -/
theorem c10_whole_file_consumption :
    (∀ (input : Chars) (f : ParsedGencadFile), ParsedGencadFile.new input = .ok f →
      ∃ secs, sectionsTok input = .ok [] secs ∧ secs ≠ []) ∧
    ParsedGencadFile.new "".data = .error "parse error" ∧
    ParsedGencadFile.new "$A\r\nK x\r\n$ENDA\r\nleftover".data =
      .error "Unparsed data remaining in file" := by
  refine ⟨?_, by decide, by decide⟩
  intro input f h
  unfold ParsedGencadFile.new at h
  cases hs : sectionsTok input <;> rw [hs] at h <;> simp at h
  case ok rem secs =>
    by_cases hrem : rem = []
    · subst hrem
      exact ⟨secs, rfl, many1P_ne_nil hs⟩
    · rw [if_neg hrem] at h
      exact absurd h (by simp)

/-- Witness for the quantified part of `c10_whole_file_consumption`, at
a one-section file. -/
theorem c10_whole_file_consumption_witness :
    ∃ secs, sectionsTok "$A\r\nK x\r\n$ENDA\r\n".data = .ok [] secs ∧ secs ≠ [] :=
  c10_whole_file_consumption.1 _ ⟨[.unknown ⟨"A", [⟨"K", "x"⟩]⟩]⟩ (by decide)

/-- Helper: evaluating a parser bind at an input. -/
theorem pBind_eval {α β : Type} (p : Parser α) (f : α → Parser β) (s : Chars) :
    (p >>= f) s =
      match p s with
      | .ok r a => f a r
      | .err => .err
      | .cut => .cut := rfl

/-- Helper: `takeWhile`/`dropWhile` split an append whose left part
satisfies the predicate and whose right part starts with a violation. -/
theorem takeWhile_append_all {f : Char → Bool} (pre suf : Chars)
    (h1 : ∀ c ∈ pre, f c = true)
    (h2 : ∀ c, suf.head? = some c → f c = false) :
    (pre ++ suf).takeWhile f = pre ∧ (pre ++ suf).dropWhile f = suf := by
  induction pre with
  | nil =>
    simp only [List.nil_append]
    cases suf with
    | nil => simp
    | cons a t =>
      have ha := h2 a rfl
      simp [List.takeWhile_cons, List.dropWhile_cons, ha]
  | cons a t ih =>
    have ha : f a = true := h1 a (by simp)
    have iht := ih (fun c hc => h1 c (by simp [hc]))
    simp [List.takeWhile_cons, List.dropWhile_cons, ha, iht.1, iht.2]

/-- Helper: `takeWhileP` on such an append consumes exactly the left
part. -/
theorem takeWhileP_append {f : Char → Bool} (pre suf : Chars)
    (h1 : ∀ c ∈ pre, f c = true)
    (h2 : ∀ c, suf.head? = some c → f c = false) :
    takeWhileP f (pre ++ suf) = .ok suf pre := by
  unfold takeWhileP
  rw [(takeWhile_append_all pre suf h1 h2).1, (takeWhile_append_all pre suf h1 h2).2]

/-- Helper: `takeWhileP` consumes nothing when the head violates the
predicate. -/
theorem takeWhileP_nil {f : Char → Bool} (l : Chars)
    (h : ∀ c, l.head? = some c → f c = false) :
    takeWhileP f l = .ok l [] := by
  have := takeWhile_append_all (f := f) [] l (by simp) h
  unfold takeWhileP
  simp only [List.nil_append] at this
  rw [this.1, this.2]

/-- Helper: `takeWhile1P` on an append with a nonempty satisfying left
part consumes exactly that part. -/
theorem takeWhile1P_append {f : Char → Bool} (pre suf : Chars) (hne : pre ≠ [])
    (h1 : ∀ c ∈ pre, f c = true)
    (h2 : ∀ c, suf.head? = some c → f c = false) :
    takeWhile1P f (pre ++ suf) = .ok suf pre := by
  cases pre with
  | nil => exact absurd rfl hne
  | cons a t =>
    unfold takeWhile1P
    rw [(takeWhile_append_all (a :: t) suf h1 h2).1,
      (takeWhile_append_all (a :: t) suf h1 h2).2]

/-- Helper: the keyword tokenizer consumes exactly a wellformed keyword. -/
theorem keywordTok_append {k : String} {suf : Chars} (hk : goodKeyword k)
    (hsuf : ∀ c, suf.head? = some c → isUpperAZ c = false) :
    keywordTok (k.data ++ suf) = .ok suf k.data := by
  unfold keywordTok
  exact takeWhile1P_append k.data suf hk.1 hk.2 hsuf

/-- Helper: an uppercase letter is not a line terminator. -/
theorem isUpperAZ_not_crlf {c : Char} (h : isUpperAZ c = true) : c ≠ '\r' ∧ c ≠ '\n' := by
  constructor
  · rintro rfl
    exact absurd h (by decide)
  · rintro rfl
    exact absurd h (by decide)

/-- Helper: a line terminator is not an uppercase letter, stated on
head characters that are known not to be terminators. -/
theorem not_crlf_pred {c : Char} (h : c ≠ '\r' ∧ c ≠ '\n') :
    (decide (c = '\r') || decide (c = '\n')) = false := by
  simp [h.1, h.2]

/-- Helper: `take_newlines` consumes exactly one CRLF when the
following character is not a terminator. -/
theorem take_newlines_crlf {rest : Chars}
    (h : ∀ c, rest.head? = some c → c ≠ '\r' ∧ c ≠ '\n') :
    take_newlines ('\r' :: '\n' :: rest) = .ok rest () := by
  unfold take_newlines
  rw [pBind_eval]
  rw [show takeWhileP (fun c => c = '\r') ('\r' :: '\n' :: rest) =
    .ok ('\n' :: rest) ['\r'] from rfl]
  dsimp only
  rw [pBind_eval]
  rw [show ('\n' :: rest) = ['\n'] ++ rest from rfl]
  rw [takeWhile1P_append ['\n'] rest (by simp) (by simp)
    (fun c hc => by simpa using (h c hc).2)]
  dsimp only
  rw [pBind_eval]
  rw [takeWhileP_nil rest (fun c hc => not_crlf_pred (h c hc))]
  rfl

/-- Helper: the keyword/parameter tokenizer consumes exactly one
wellformed CRLF-terminated line and returns its two halves. -/
theorem keywordParamTok_line {s : Statement} {rest : Chars} (hs : goodStmt s)
    (hrest : ∀ c, rest.head? = some c → c ≠ '\r' ∧ c ≠ '\n') :
    keywordParamTok (statementLineChars s ++ rest) = .ok rest ⟨s.keyword, s.parameter⟩ := by
  unfold keywordParamTok
  rw [show statementLineChars s ++ rest =
    s.keyword.data ++ (' ' :: (s.parameter.data ++ ('\r' :: '\n' :: rest))) by
      simp [statementLineChars]]
  rw [pBind_eval]
  rw [keywordTok_append hs.1 (fun c hc => by
    cases hc
    rfl)]
  dsimp only
  rw [pBind_eval]
  rw [show tagS " " (' ' :: (s.parameter.data ++ ('\r' :: '\n' :: rest))) =
    .ok (s.parameter.data ++ ('\r' :: '\n' :: rest)) [' '] by
      simp [tagS, tagP, List.isPrefixOf]]
  dsimp only
  rw [pBind_eval]
  rw [show (takeTillP fun c => c = '\r' || c = '\n') = takeWhileP
    (fun c => !(decide (c = '\r') || decide (c = '\n'))) from rfl]
  rw [takeWhileP_append s.parameter.data ('\r' :: '\n' :: rest)
    (fun c hc => by simp [(hs.2 c hc).1, (hs.2 c hc).2])
    (fun c hc => by
      cases hc
      rfl)]
  dsimp only
  rw [pBind_eval]
  rw [take_newlines_crlf hrest]
  rfl

/-- Helper: the character stream of a statement block followed by a
`$`-headed tail never starts with a line terminator. -/
theorem linesHead {ss : List Statement} {rest : Chars} (hg : ∀ s ∈ ss, goodStmt s)
    (hd : rest.head? = some '$') :
    ∀ c, ((ss.map statementLineChars).flatten ++ rest).head? = some c →
      c ≠ '\r' ∧ c ≠ '\n' := by
  intro c hc
  cases ss with
  | nil =>
    simp only [List.map_nil, List.flatten_nil, List.nil_append] at hc
    rw [hd] at hc
    cases hc
    decide
  | cons s t =>
    have hk := (hg s (by simp)).1
    obtain ⟨a, ka, hka⟩ : ∃ a ka, s.keyword.data = a :: ka := by
      cases hke : s.keyword.data with
      | nil => exact absurd hke hk.1
      | cons a ka => exact ⟨a, ka, rfl⟩
    simp only [List.map_cons, List.flatten_cons, statementLineChars, hka,
      List.cons_append, List.append_assoc, List.head?_cons] at hc
    cases hc
    exact isUpperAZ_not_crlf (hk.2 c (by rw [hka]; simp))

/-- Helper: one unfolding step of the fuelled `many0`. -/
theorem many0F_succ {α : Type} (p : Parser α) (n : Nat) (s : Chars) :
    many0F p (n + 1) s =
      match p s with
      | .err => .ok s []
      | .cut => .cut
      | .ok r a =>
        if r.length = s.length then .err
        else
          match many0F p n r with
          | .ok r2 as => .ok r2 (a :: as)
          | .err => .err
          | .cut => .cut := by
  rw [many0F]

/-- Helper: `many0` over the keyword/parameter tokenizer consumes
exactly a block of wellformed lines, stopping at a `$`-headed tail, for
any sufficient fuel. -/
theorem many0F_lines :
    ∀ (stmts : List Statement) (fuel : Nat) (rest : Chars),
      (∀ s ∈ stmts, goodStmt s) → rest.head? = some '$' →
      ((stmts.map statementLineChars).flatten ++ rest).length < fuel →
      many0F keywordParamTok fuel ((stmts.map statementLineChars).flatten ++ rest) =
        .ok rest (stmts.map fun s => ⟨s.keyword, s.parameter⟩) := by
  intro stmts
  induction stmts with
  | nil =>
    intro fuel rest hg hd hlen
    cases fuel with
    | zero => omega
    | succ n =>
      obtain ⟨t, rfl⟩ : ∃ t, rest = '$' :: t := by
        cases rest with
        | nil => cases hd
        | cons a t =>
          cases hd
          exact ⟨t, rfl⟩
      simp only [List.map_nil, List.flatten_nil, List.nil_append]
      rw [many0F_succ]
      rw [show keywordParamTok ('$' :: t) = .err from rfl]
  | cons s ss ih =>
    intro fuel rest hg hd hlen
    have hline : (statementLineChars s).length =
        s.keyword.data.length + s.parameter.data.length + 3 := by
      simp [statementLineChars]
      omega
    cases fuel with
    | zero => omega
    | succ n =>
      have hsplit : ((s :: ss).map statementLineChars).flatten ++ rest =
          statementLineChars s ++ ((ss.map statementLineChars).flatten ++ rest) := by
        simp
      rw [hsplit] at hlen
      rw [hsplit]
      rw [many0F_succ]
      rw [keywordParamTok_line (hg s (by simp))
        (linesHead (fun x hx => hg x (by simp [hx])) hd)]
      dsimp only
      have hlensplit :
          (statementLineChars s ++ ((ss.map statementLineChars).flatten ++ rest)).length =
          (statementLineChars s).length + ((ss.map statementLineChars).flatten ++ rest).length := by
        simp
      rw [if_neg (by omega)]
      rw [ih n rest (fun x hx => hg x (by simp [hx])) hd (by omega)]
      simp

/-- Helper: the section tokenizer consumes one whole wellformed
CRLF-terminated section and keeps its name and lines in order. -/
theorem sectionTok_unknown {name : String} {stmts : List Statement}
    (hn : goodKeyword name) (hg : ∀ s ∈ stmts, goodStmt s) :
    sectionTok (unknownSectionChars name stmts) =
      .ok [] ⟨name, stmts.map fun s => ⟨s.keyword, s.parameter⟩⟩ := by
  unfold sectionTok
  rw [pBind_eval]
  rw [show section_start (unknownSectionChars name stmts) =
      .ok ((stmts.map statementLineChars).flatten ++
        ('$' :: 'E' :: 'N' :: 'D' :: (name.data ++ ['\r', '\n']))) name by
    unfold section_start unknownSectionChars
    rw [pBind_eval]
    rw [show tagS "$" ('$' :: (name.data ++ ('\r' :: '\n' ::
        ((stmts.map statementLineChars).flatten ++
          ('$' :: 'E' :: 'N' :: 'D' :: (name.data ++ ['\r', '\n'])))))) =
      .ok (name.data ++ ('\r' :: '\n' ::
        ((stmts.map statementLineChars).flatten ++
          ('$' :: 'E' :: 'N' :: 'D' :: (name.data ++ ['\r', '\n']))))) ['$'] by
        simp [tagS, tagP, List.isPrefixOf]]
    dsimp only
    rw [pBind_eval]
    rw [keywordTok_append hn (fun c hc => by
      cases hc
      rfl)]
    dsimp only
    rw [pBind_eval]
    rw [take_newlines_crlf (linesHead hg (show List.head?
      ('$' :: 'E' :: 'N' :: 'D' :: (name.data ++ ['\r', '\n'])) = some '$' from rfl))]
    rfl]
  dsimp only
  rw [pBind_eval]
  rw [show many0P keywordParamTok
      ((stmts.map statementLineChars).flatten ++
        ('$' :: 'E' :: 'N' :: 'D' :: (name.data ++ ['\r', '\n']))) =
    .ok ('$' :: 'E' :: 'N' :: 'D' :: (name.data ++ ['\r', '\n']))
      (stmts.map fun s => ⟨s.keyword, s.parameter⟩) by
    unfold many0P
    exact many0F_lines stmts
      (((stmts.map statementLineChars).flatten ++
        ('$' :: 'E' :: 'N' :: 'D' :: (name.data ++ ['\r', '\n']))).length + 1)
      ('$' :: 'E' :: 'N' :: 'D' :: (name.data ++ ['\r', '\n'])) hg rfl
      (Nat.lt_succ_self _)]
  dsimp only
  rw [pBind_eval]
  rw [show section_end ('$' :: 'E' :: 'N' :: 'D' :: (name.data ++ ['\r', '\n'])) =
      .ok [] name by
    unfold section_end
    rw [pBind_eval]
    rw [show tagS "$END" ('$' :: 'E' :: 'N' :: 'D' :: (name.data ++ ['\r', '\n'])) =
      .ok (name.data ++ ['\r', '\n']) "$END".data by
        simp [tagS, tagP, List.isPrefixOf]]
    dsimp only
    rw [pBind_eval]
    rw [keywordTok_append hn (fun c hc => by
      cases hc
      rfl)]
    dsimp only
    rw [pBind_eval]
    rw [show (['\r', '\n'] : Chars) = '\r' :: '\n' :: [] from rfl]
    rw [take_newlines_crlf (fun c hc => by cases hc)]
    rfl]
  dsimp only
  rw [if_pos rfl]
  rfl

/-- Helper: the whole-file tokenizer on one wellformed section consumes
everything and yields exactly that section. -/
theorem sectionsTok_unknown {name : String} {stmts : List Statement}
    (hn : goodKeyword name) (hg : ∀ s ∈ stmts, goodStmt s) :
    sectionsTok (unknownSectionChars name stmts) =
      .ok [] [⟨name, stmts.map fun s => ⟨s.keyword, s.parameter⟩⟩] := by
  unfold sectionsTok many1P
  rw [sectionTok_unknown hn hg]
  rfl

/-- Helper: re-wrapping the tokenizer's pairs as statements recovers the
original statements. -/
theorem stmtMap_roundtrip (l : List Statement) :
    ((l.map fun s => KeywordParam.mk s.keyword s.parameter).map
      fun kp => Statement.mk kp.keyword kp.parameter) = l := by
  induction l with
  | nil => rfl
  | cons a t ih => simp [ih]

/-- Helper: dispatching a section whose name is unrecognized produces
the opaque record with the original name and pairs. -/
theorem dispatchSection_unknown {name : String} {stmts : List Statement}
    (hk : name ∉ knownSectionNames) :
    dispatchSection ⟨name, stmts.map fun s => ⟨s.keyword, s.parameter⟩⟩ =
      .ok (.unknown ⟨name, stmts⟩) := by
  simp only [knownSectionNames, List.mem_cons, List.not_mem_nil, or_false, not_or] at hk
  obtain ⟨h1, h2, h3, h4, h5, h6, h7, h8⟩ := hk
  simp only [dispatchSection, h1, h2, h3, h4, h5, h6, h7, h8, if_false, Unknown.new,
    stmtMap_roundtrip, exBind_ok]

/-- Helper: parsing one wellformed unrecognized section succeeds and
captures it opaquely. -/
theorem parsedGencadFile_unknown {name : String} {stmts : List Statement}
    (hn : goodKeyword name) (hg : ∀ s ∈ stmts, goodStmt s)
    (hk : name ∉ knownSectionNames) :
    ParsedGencadFile.new (unknownSectionChars name stmts) =
      .ok ⟨[.unknown ⟨name, stmts⟩]⟩ := by
  unfold ParsedGencadFile.new
  rw [sectionsTok_unknown hn hg]
  dsimp only
  rw [if_neg (by simp)]
  simp only [List.mapM, List.mapM.loop, dispatchSection_unknown hk, exBind_ok]
  rfl

/-- Helper: rendering one statement and appending CRLF gives that
statement's line bytes. -/
theorem statement_line_data (s : Statement) :
    (Statement.to_gencad_string s).data ++ ['\r', '\n'] = statementLineChars s := by
  simp [Statement.to_gencad_string, statementLineChars, String.data_append,
    show (" " : String).data = [' '] from rfl]

/-- Helper: the CRLF-join of rendered statements, with one final CRLF
appended, equals the concatenation of the statement lines. -/
theorem crlfJoin_stmts_data (stmts : List Statement) (hne : stmts ≠ []) :
    (crlfJoin (stmts.map Statement.to_gencad_string)).data ++ ['\r', '\n'] =
      (stmts.map statementLineChars).flatten := by
  induction stmts with
  | nil => exact absurd rfl hne
  | cons a t ih =>
    cases t with
    | nil =>
      simp only [List.map_cons, List.map_nil, crlfJoin, List.flatten_cons,
        List.flatten_nil, List.append_nil]
      exact statement_line_data a
    | cons b t2 =>
      have iht := ih (by simp)
      rw [show crlfJoin ((a :: b :: t2).map Statement.to_gencad_string) =
        Statement.to_gencad_string a ++ "\r\n" ++
          crlfJoin ((b :: t2).map Statement.to_gencad_string) from rfl]
      rw [show ((a :: b :: t2).map statementLineChars).flatten =
        statementLineChars a ++ ((b :: t2).map statementLineChars).flatten from by simp]
      rw [← iht]
      rw [← statement_line_data a]
      simp [String.data_append, show ("\r\n" : String).data = ['\r', '\n'] from rfl]

/-- Helper: serializing the opaque record and appending one CRLF
reproduces the original section bytes. -/
theorem unknown_serialize_data (name : String) (stmts : List Statement) (hne : stmts ≠ []) :
    (Unknown.to_gencad_string ⟨name, stmts⟩).data ++ ['\r', '\n'] =
      unknownSectionChars name stmts := by
  rw [show Unknown.to_gencad_string ⟨name, stmts⟩ =
    ("$" ++ name) ++ "\r\n" ++
      (crlfJoin (stmts.map Statement.to_gencad_string) ++ "\r\n" ++ ("$END" ++ name)) from rfl]
  rw [show unknownSectionChars name stmts =
    '$' :: (name.data ++ ('\r' :: '\n' ::
      ((stmts.map statementLineChars).flatten ++
        ('$' :: 'E' :: 'N' :: 'D' :: (name.data ++ ['\r', '\n']))))) from rfl]
  rw [← crlfJoin_stmts_data stmts hne]
  simp [String.data_append, show ("$" : String).data = ['$'] from rfl,
    show ("\r\n" : String).data = ['\r', '\n'] from rfl,
    show ("$END" : String).data = ['$', 'E', 'N', 'D'] from rfl]

/-- Claim C3, counterexample: an unknown section with LF terminators
parses fine into the opaque record, but serializing that record does not
reproduce the original text byte-identically (the serializer emits CRLF
and drops the terminator after `$ENDNAME`), refuting byte-identical
round-tripping "for any of the tolerated line terminators". -/
theorem c3_counterexample :
    ParsedGencadFile.new "$FOO\nA x\n$ENDFOO\n".data =
      .ok ⟨[.unknown ⟨"FOO", [⟨"A", "x"⟩]⟩]⟩ ∧
    Unknown.to_gencad_string ⟨"FOO", [⟨"A", "x"⟩]⟩ ≠ "$FOO\nA x\n$ENDFOO\n" := by
  constructor
  · decide
  · decide

/-- Claim C3 (status: corrected).  Amended: a section whose name is not
recognized parses without error into an opaque record preserving its
name and its keyword/parameter pairs in file order; serializing that
record renders every line with CRLF and omits the terminator after
`$ENDNAME`, so for a section written with exactly one CRLF per line (and
at least one keyword line) the serialized bytes followed by one CRLF are
byte-identical to the original section text. -/
theorem c3_unknown_passthrough :
    ∀ (name : String) (stmts : List Statement),
      goodKeyword name → (∀ s ∈ stmts, goodStmt s) → stmts ≠ [] →
      name ∉ knownSectionNames →
      ParsedGencadFile.new (unknownSectionChars name stmts) =
        .ok ⟨[.unknown ⟨name, stmts⟩]⟩ ∧
      (Unknown.to_gencad_string ⟨name, stmts⟩).data ++ ['\r', '\n'] =
        unknownSectionChars name stmts := by
  intro name stmts hn hg hne hk
  exact ⟨parsedGencadFile_unknown hn hg hk, unknown_serialize_data name stmts hne⟩

/-- Witness for `c3_unknown_passthrough` at a concrete section named
`FOO` with one keyword line. -/
theorem c3_unknown_passthrough_witness :
    ParsedGencadFile.new (unknownSectionChars "FOO" [⟨"A", "x"⟩]) =
      .ok ⟨[.unknown ⟨"FOO", [⟨"A", "x"⟩]⟩]⟩ ∧
    (Unknown.to_gencad_string ⟨"FOO", [⟨"A", "x"⟩]⟩).data ++ ['\r', '\n'] =
      unknownSectionChars "FOO" [⟨"A", "x"⟩] :=
  c3_unknown_passthrough "FOO" [⟨"A", "x"⟩] (by decide) (by decide) (by decide) (by decide)

end Gencad
